import Mathlib

/-!
Verification development for the LLM Council deliberation pipeline
(`backend/contracts.py`, `backend/roles.py`, `backend/council.py`).

The Python code is shallowly embedded: every pure helper is translated into a
computable Lean function over `String` / `List Char`; the stateful stage
runners are translated into explicit functions over the results of their
outbound chat calls (an "oracle" input assigns to each call either the text
the remote model returned or the exception message the call raised).
Python `float` arithmetic on rank sums is modelled with `ℚ` (the values
involved are small integer sums and exact divisions are compared).
-/

namespace Council

/-- The apostrophe character (U+0027), used by several source string
constants. -/
def apos : Char := Char.ofNat 39

/-- The double-quote character (U+0022). -/
def dquote : Char := Char.ofNat 34

/-- Python `\s` / `str.strip()` whitespace (the subset relevant here:
ASCII whitespace plus the common Unicode spaces handled by the source). -/
def pyIsSpace (c : Char) : Bool :=
  c = ' ' || c = '\t' || c = '\n' || c = '\r' || c = Char.ofNat 11 ||
  c = Char.ofNat 12 || c = Char.ofNat 0x85 || c = Char.ofNat 0xa0 ||
  c = Char.ofNat 0x1680 || (0x2000 ≤ c.toNat && c.toNat ≤ 0x200a) ||
  c = Char.ofNat 0x2028 || c = Char.ofNat 0x2029 || c = Char.ofNat 0x202f ||
  c = Char.ofNat 0x205f || c = Char.ofNat 0x3000

/-- Python `str.strip()` on a character list. -/
def pyStripL (l : List Char) : List Char :=
  ((l.dropWhile pyIsSpace).reverse.dropWhile pyIsSpace).reverse

/-- Python `str.strip()`. -/
def pyStrip (s : String) : String := ⟨pyStripL s.data⟩

/-- Python `str.lower()` (ASCII case folding; the source only folds ASCII
identifiers and English phrases). -/
def pyLower (s : String) : String := ⟨s.data.map Char.toLower⟩

/-- Strip a fixed set of characters from both ends (Python `str.strip(chars)`). -/
def stripCharsL (bad : List Char) (l : List Char) : List Char :=
  ((l.dropWhile (bad.contains ·)).reverse.dropWhile (bad.contains ·)).reverse

/-- Python word character for `\b` / `\w`: ASCII alphanumeric or underscore. -/
def isWordCh (c : Char) : Bool :=
  (('a' ≤ c && c ≤ 'z') || ('A' ≤ c && c ≤ 'Z') || ('0' ≤ c && c ≤ '9') || c = '_')

/-- `true` when the optional character counts as a word character
(`none` = string edge = non-word). -/
def optIsWord : Option Char → Bool
  | some c => isWordCh c
  | none => false

/-- Is ASCII letter. -/
def isAsciiLetter (c : Char) : Bool :=
  ('a' ≤ c && c ≤ 'z') || ('A' ≤ c && c ≤ 'Z')

/-- Is ASCII digit. -/
def isDigitCh (c : Char) : Bool := '0' ≤ c && c ≤ '9'

/-- Does `l` start with `p` (character lists)? -/
def startsWithL : List Char → List Char → Bool
  | _, [] => true
  | [], _ :: _ => false
  | c :: l, p :: ps => c = p && startsWithL l ps

/-- Does `l` start with `p`, comparing case-insensitively (ASCII)? -/
def startsWithCI : List Char → List Char → Bool
  | _, [] => true
  | [], _ :: _ => false
  | c :: l, p :: ps => c.toLower = p.toLower && startsWithCI l ps

/-- Python `str.startswith` (on `String`, via character lists so that it
evaluates by kernel reduction). -/
def pyStartsWith (s pre : String) : Bool := startsWithL s.data pre.data

/-- Substring containment on character lists (Python `needle in hay`). -/
def containsSub (hay needle : List Char) : Bool :=
  match hay with
  | [] => startsWithL [] needle
  | _ :: rest => startsWithL hay needle || containsSub rest needle

/-- Substring containment on `String`s (Python `needle in hay`). -/
def strContains (hay needle : String) : Bool := containsSub hay.data needle.data

/-- Python `str.splitlines()` (line breaks: `\n`, `\r\n`, `\r`, `\v`, `\f`,
`\x1c`–`\x1e`, `\x85`, U+2028, U+2029; no trailing empty line). -/
def isLineBreak (c : Char) : Bool :=
  c = '\n' || c = '\r' || c = Char.ofNat 11 || c = Char.ofNat 12 ||
  c = Char.ofNat 0x1c || c = Char.ofNat 0x1d || c = Char.ofNat 0x1e ||
  c = Char.ofNat 0x85 || c = Char.ofNat 0x2028 || c = Char.ofNat 0x2029

/-- Worker for `splitlinesL`. -/
def splitlinesGo : List Char → List Char → List (List Char)
  | [], acc => if acc.isEmpty then [] else [acc.reverse]
  | '\r' :: '\n' :: r2, acc => acc.reverse :: splitlinesGo r2 []
  | c :: rest, acc =>
    if isLineBreak c then acc.reverse :: splitlinesGo rest []
    else splitlinesGo rest (c :: acc)

/-- Python `str.splitlines()` on character lists. -/
def splitlinesL (l : List Char) : List (List Char) := splitlinesGo l []

/-- Python `str.split(sep)` for a single-character separator: splits at every
occurrence, keeping empty chunks (`"a,,b" → ["a","","b"]`, `"" → [""]`). -/
def splitOnCharGo (sep : Char) : List Char → List Char → List (List Char)
  | [], acc => [acc.reverse]
  | c :: rest, acc =>
    if c = sep then acc.reverse :: splitOnCharGo sep rest []
    else splitOnCharGo sep rest (c :: acc)

/-- Python `str.split(sep)` (single-character separator). -/
def splitOnCharL (sep : Char) (l : List Char) : List (List Char) :=
  splitOnCharGo sep l []

/-- Replace every occurrence of one character by another. -/
def replaceCharL (a b : Char) (l : List Char) : List Char :=
  l.map fun c => if c = a then b else c

/-- Replace every (non-overlapping, leftmost) occurrence of `"->"` by `">"`
(Python `str.replace("->", ">")`). -/
def replaceDashGt : List Char → List Char
  | '-' :: '>' :: rest => '>' :: replaceDashGt rest
  | c :: rest => c :: replaceDashGt rest
  | [] => []

/-- Collapse every whitespace run into one space
(worker for `normalizeWs`; the flag records whether the previous kept
character closed a whitespace run). -/
def collapseWsGo : List Char → Bool → List Char
  | [], _ => []
  | c :: rest, prevSpace =>
    if pyIsSpace c then
      if prevSpace then collapseWsGo rest true
      else ' ' :: collapseWsGo rest true
    else c :: collapseWsGo rest false

/-- `_normalize_ws`: replace NBSP/narrow-NBSP/figure-space by a plain space,
collapse every `\s+` run to a single space, and strip. -/
def normalizeWsL (l : List Char) : List Char :=
  pyStripL (collapseWsGo
    (replaceCharL (Char.ofNat 0x2007) ' '
      (replaceCharL (Char.ofNat 0x202f) ' '
        (replaceCharL (Char.ofNat 0xa0) ' ' l))) false)

/-- `_normalize_ws` on `String`. -/
def normalizeWs (s : String) : String := ⟨normalizeWsL s.data⟩

end Council

namespace Council

/-! ### `backend/contracts.py` -/

/-- `FACTORY_TRUTH_V1.contract_id`. -/
def factoryBaseId : String := "factory_truth_v1"

/-- The comma-separated ids parsed by `parse_contract_ids` before the
base-contract adjustment: split on `","`, strip each piece, drop empties
(an absent or empty stack yields `[]`, Python falsiness included). -/
def splitContractIds (contract_stack : Option String) : List String :=
  match contract_stack with
  | none => []
  | some s =>
    if s.data.isEmpty then []
    else ((splitOnCharL ',' s.data).map pyStripL).filter (· ≠ []) |>.map (⟨·⟩)

/-- `parse_contract_ids`: parse the stack, then ensure the factory base
contract is present and first (insert it, or move every occurrence of it to a
single leading occurrence). -/
def parse_contract_ids (contract_stack : Option String) : List String :=
  let ids := splitContractIds contract_stack
  if factoryBaseId ∈ ids then
    factoryBaseId :: ids.filter (fun c => c ≠ factoryBaseId)
  else
    factoryBaseId :: ids

/-- Word-boundary test between two optional adjacent characters
(regex `\b`: word-ness differs across the position; a string edge is
non-word). -/
def bdry (a b : Option Char) : Bool := optIsWord a != optIsWord b

/-- Does `phrase` occur at the head of `hay` with `\b` at both ends?
(`prev` is the character just before the current position.) -/
def wordPhraseHere (phrase : List Char) (prev : Option Char) (hay : List Char) : Bool :=
  startsWithL hay phrase && bdry prev phrase.head? &&
    bdry phrase.getLast? ((hay.drop phrase.length).head?)

/-- Scan `hay` for a `\b phrase \b` occurrence. -/
def wordSearchGo (phrase : List Char) (prev : Option Char) : List Char → Bool
  | [] => wordPhraseHere phrase prev []
  | c :: rest =>
    wordPhraseHere phrase prev (c :: rest) || wordSearchGo phrase (some c) rest

/-- Regex search for `\b(p₁|p₂|…)\b` (true iff some alternative occurs
somewhere with word boundaries). -/
def wordAltSearch (hay : List Char) (phrases : List String) : Bool :=
  phrases.any fun p => wordSearchGo p.data none hay

/-- `_needs_rubric_table_first`. -/
def needs_rubric_table_first (user_prompt : String) : Bool :=
  let up := pyLower user_prompt
  strContains up "start with the rubric table" || strContains up "rubric table"

/-- Does `\|\s*:?-{3,}:?\s*\|` match at the head of `l`? -/
def sep1Here (l : List Char) : Bool :=
  match l with
  | '|' :: r =>
    let r2 := r.dropWhile pyIsSpace
    let r3 := match r2 with | ':' :: t => t | _ => r2
    let ds := r3.takeWhile (· = '-')
    if ds.length < 3 then false
    else
      let r4 := r3.drop ds.length
      let r5 := match r4 with | ':' :: t => t | _ => r4
      let r6 := r5.dropWhile pyIsSpace
      match r6 with | '|' :: _ => true | _ => false
  | _ => false

/-- Does `-{3,}\s*\|` match at the head of `l`? -/
def sep2Here (l : List Char) : Bool :=
  let ds := l.takeWhile (· = '-')
  if ds.length < 3 then false
  else
    match (l.drop ds.length).dropWhile pyIsSpace with
    | '|' :: _ => true
    | _ => false

/-- Regex search (any position) for a pattern given its head matcher. -/
def anyPosition (p : List Char → Bool) : List Char → Bool
  | [] => p []
  | c :: rest => p (c :: rest) || anyPosition p rest

/-- `_contains_markdown_table_early`: stripped non-blank lines among the first
`max_lines` raw lines; need at least two of them, a `|` in the first 10, and a
header-separator (`\|\s*:?-{3,}:?\s*\|` or `-{3,}\s*\|`) in the first 15. -/
def contains_markdown_table_early (text : String) (max_lines : Nat) : Bool :=
  let window := (((splitlinesL text.data).take max_lines).map pyStripL).filter (· ≠ [])
  if window.length < 2 then false
  else
    let has_pipe := (window.take 10).any (fun ln => ln.contains '|')
    let has_sep := (window.take 15).any
      (fun ln => anyPosition sep1Here ln || anyPosition sep2Here ln)
    has_pipe && has_sep

/-- `_has_section_heading`. -/
def has_section_heading (text : String) (token : String) : Bool :=
  let t := pyLower text
  let tok := pyLower token
  strContains t ("## " ++ tok) || strContains t (tok ++ ")") ||
    strContains t (tok ++ " -") || strContains t (tok ++ ":")

/-- Matches `\d+(?:\.\d+)?\s*(mg|mcg|g|ml)\b` at the head of `l`, with `\b`
before the first digit (`prev` non-word). -/
def numUnitHere (prev : Option Char) (l : List Char) : Bool :=
  let ds := l.takeWhile isDigitCh
  if ds.isEmpty then false
  else if optIsWord prev then false
  else
    let r1 := l.drop ds.length
    let r2 := match r1 with
      | '.' :: t =>
        let fs := t.takeWhile isDigitCh
        if fs.isEmpty then r1 else t.drop fs.length
      | _ => r1
    let r3 := r2.dropWhile pyIsSpace
    ["mg", "mcg", "g", "ml"].any fun u =>
      startsWithL r3 u.data && !optIsWord ((r3.drop u.data.length).head?)

/-- `[^\n\.]{0,fuel}` then the number-with-unit pattern. -/
def gapThenNum : Nat → Option Char → List Char → Bool
  | fuel, prev, l =>
    numUnitHere prev l ||
    match fuel, l with
    | 0, _ => false
    | _, [] => false
    | fuel' + 1, c :: rest =>
      if c = '\n' || c = '.' then false else gapThenNum fuel' (some c) rest

/-- The dosing verbs, in the regex alternation order. -/
def dosingVerbs : List String := ["take", "dose", "dosing", "administer"]

/-- Scan for `\b(take|dose|dosing|administer)\b[^\n\.]{0,80}\b\d+(\.\d+)?\s*(mg|mcg|g|ml)\b`. -/
def dosingSearchGo (prev : Option Char) : List Char → Bool
  | [] => false
  | c :: rest =>
    (dosingVerbs.any fun v =>
      let vl := v.data
      startsWithL (c :: rest) vl && !optIsWord prev &&
        !optIsWord (((c :: rest).drop vl.length).head?) &&
        gapThenNum 80 vl.getLast? ((c :: rest).drop vl.length)) ||
    dosingSearchGo (some c) rest

/-- `_detect_prohibited_claims`: `(category, reasons)` pairs in the insertion
order of the source dict. -/
def detect_prohibited_claims (text : String) : List (String × List String) :=
  let t := (pyLower text).data
  let g1 : List (String × List String) :=
    if wordAltSearch t ["guarantee", "100%", "always works", "cannot fail",
        "will prevent", "prevents all"] then
      [("guarantee", ["Contains guarantee / absolute prevention language."])]
    else []
  let g2 : List (String × List String) :=
    if wordAltSearch t ["accessibility service", "accessibility api",
        "android accessibility"] then
      [("accessibility_automation",
        ["Mentions Accessibility Service/API automation (disallowed)."])]
    else []
  let g3 : List (String × List String) :=
    if wordAltSearch t ["background monitoring", "always listening",
        "listen 24/7", "constant monitoring", "monitor in the background"] then
      [("background_monitoring",
        ["Mentions background/always-on monitoring (disallowed)."])]
    else []
  let g4 : List (String × List String) :=
    if dosingSearchGo none t then
      [("medical_dosing",
        ["Contains dosing-like instruction with a specific quantity (disallowed)."])]
    else []
  g1 ++ g2 ++ g3 ++ g4

/-- `_detect_soft_warnings`. -/
def detect_soft_warnings (user_prompt : String) (text : String)
    (contract_stack : Option String) : List String :=
  let tl := pyLower text
  let w1 : List String :=
    if !strContains tl "[observed]" && !strContains tl "[assumed]" &&
        !strContains tl "[inferred]" then
      ["No [Observed]/[Assumed]/[Inferred] tags detected; contract prefers explicit uncertainty tagging."]
    else []
  let w2 : List String :=
    if needs_rubric_table_first user_prompt then
      let missing := (["b", "c", "d", "e", "f"].filter
        (fun sec => !has_section_heading text sec)).map (fun s => ⟨s.data.map Char.toUpper⟩)
      if missing ≠ [] then
        ["Missing expected sections: " ++ String.intercalate ", " missing ++ " (protocol B–F)."]
      else []
    else []
  let w3 : List String :=
    match contract_stack with
    | some cs =>
      if !cs.data.isEmpty && strContains cs "eldercare_safety_v1" &&
          wordAltSearch tl.data ["diagnose", "diagnosis", "you have",
            "this means you have"] then
        ["Possible medical-diagnosis phrasing detected; prefer safe-hold + escalation."]
      else []
    | none => []
  w1 ++ w2 ++ w3

/-- The rubric-table hard-fail reason string emitted by
`evaluate_contract_compliance`. -/
def rubricFailReason : String :=
  "Requested " ++ ⟨[apos]⟩ ++ "Start with the rubric table" ++ ⟨[apos]⟩ ++
    " but no markdown table detected near the top."

/-- The result dict of `evaluate_contract_compliance` (the `checks` map and the
wall-clock `evaluated_at` field are not modelled). -/
structure ContractEval where
  stage : String
  status : String
  eligible : Bool
  hardFailReasons : List String
  warnings : List String
deriving Repr, DecidableEq

/-- `evaluate_contract_compliance`. -/
def evaluate_contract_compliance (user_prompt : String) (response_text : String)
    (contract_stack : Option String) (stage : String) : ContractEval :=
  let rubricFails : List String :=
    if needs_rubric_table_first user_prompt then
      if !contains_markdown_table_early response_text 30 then [rubricFailReason] else []
    else []
  let prohibited := detect_prohibited_claims response_text
  let hardFail := rubricFails ++ (prohibited.map Prod.snd).flatten
  let warns := detect_soft_warnings user_prompt response_text contract_stack
  let status := if hardFail ≠ [] then "FAIL" else if warns ≠ [] then "WARN" else "PASS"
  { stage := stage
    status := status
    eligible := status ≠ "FAIL"
    hardFailReasons := hardFail
    warnings := warns }

/-! ### `backend/roles.py` -/

/-- `RoleSpec`. -/
structure RoleSpec where
  role : String
  system_prompt : String
deriving Repr, DecidableEq

/-- `DEFAULT_ROLE`. -/
def DEFAULT_ROLE : RoleSpec :=
  { role := "Generalist"
    system_prompt :=
      "You are a helpful generalist in an LLM council. Be direct, accurate, and avoid inventing facts. If something is unknown, say so and propose the next best step." }

/-- `MODEL_ROLES`: the per-model role assignment, keyed by the exact model id. -/
def MODEL_ROLES : List (String × RoleSpec) :=
  [("openai/gpt-5.2",
    { role := "Analyst"
      system_prompt :=
        "You are the Analyst in an LLM council. Prioritize clear structure, correct reasoning, and explicit assumptions. Prefer short numbered steps. Avoid fluff and marketing language." }),
   ("google/gemini-3-pro-preview",
    { role := "Researcher"
      system_prompt :=
        "You are the Researcher in an LLM council. Prioritize factual coverage, edge-case facts, and crisp definitions. If a claim is uncertain, label it as uncertain rather than guessing." }),
   ("anthropic/claude-sonnet-4.5",
    { role := "Critic"
      system_prompt :=
        "You are the Critic in an LLM council. Pressure-test the prompt and other answers: find ambiguity, missing constraints, and likely failure modes. Offer concrete improvements. Stay grounded and avoid speculation." }),
   ("x-ai/grok-4.1-fast",
    { role := "Provocateur"
      system_prompt :=
        "You are the Provocateur in an LLM council. Challenge groupthink and propose alternative viewpoints or creative approaches. Mark any speculation clearly; do not fabricate facts." }),
   ("anthropic/claude-opus-4.5",
    { role := "Chairman"
      system_prompt :=
        "You are the Chairman of an LLM council. Synthesize the best parts of the council into one final answer. Prefer balance over dominance, and correct factual errors. Be concise, practical, and avoid meta commentary." })]

/-- `get_role_spec`: dict lookup with `DEFAULT_ROLE` fallback. -/
def get_role_spec (model_id : String) : RoleSpec :=
  (MODEL_ROLES.lookup model_id).getD DEFAULT_ROLE

end Council

namespace Council

/-! ### `backend/council.py` — parsing, coercion and quality helpers -/

/-- The backtick character (U+0060). -/
def btick : Char := Char.ofNat 96

/-- Does `l` end with `p`? -/
def endsWithL (l p : List Char) : Bool := startsWithL l.reverse p.reverse

/-- Characters allowed after the opening code fence (`[a-zA-Z0-9_-]`). -/
def isFenceInfoCh (c : Char) : Bool :=
  isAsciiLetter c || isDigitCh c || c = '_' || c = '-'

/-- `_strip_wrappers`: strip, trim a surrounding triple-backtick fence, and
peel stray backticks/quotes from both ends. -/
def strip_wrappersL (text : List Char) : List Char :=
  let t := pyStripL text
  if t.isEmpty then []
  else
    let t :=
      if startsWithL t "```".data then
        ((t.drop 3).dropWhile isFenceInfoCh).dropWhile pyIsSpace
      else t
    let t :=
      if endsWithL t "```".data then
        ((t.reverse.drop 3).dropWhile pyIsSpace).reverse
      else t
    pyStripL (stripCharsL [apos]
      (pyStripL (stripCharsL [dquote]
        (pyStripL (stripCharsL [btick] (pyStripL t))))))

/-- `_strip_wrappers` on `String`. -/
def strip_wrappers (text : String) : String := ⟨strip_wrappersL text.data⟩

/-- `[A-Za-z0-9_\-]` (the id-tail class of the first provider-id regex). -/
def isIdTailCh (c : Char) : Bool :=
  isAsciiLetter c || isDigitCh c || c = '_' || c = '-'

/-- `[A-Za-z0-9\-]`. -/
def isIdCh (c : Char) : Bool := isAsciiLetter c || isDigitCh c || c = '-'

/-- `_looks_like_provider_id`: full-match against the three request-id
shapes. -/
def looks_like_provider_id (text : String) : Bool :=
  let t := pyStripL text.data
  if t.isEmpty then false
  else
    let r1 :=
      startsWithL t "gen-".data &&
        (let ds := (t.drop 4).takeWhile isDigitCh
         decide (6 ≤ ds.length) &&
           (match t.drop (4 + ds.length) with
            | '-' :: tail => decide (8 ≤ tail.length) && tail.all isIdTailCh
            | _ => false))
    let tl := t.map Char.toLower
    let r2 := ["chatcmpl", "cmpl", "req", "request", "run", "msg"].any fun p =>
      startsWithL tl (p.data ++ ['-']) &&
        (let rest := tl.drop (p.data.length + 1)
         decide (12 ≤ rest.length) && rest.all isIdCh)
    let r3 := decide (24 ≤ t.length) && t.all isIdCh &&
      !t.contains ' ' && !t.contains '\n'
    r1 || r2 || r3

/-- The process-narration phrase family of `_contains_process_narration`
(the alternatives of its regex, in order). -/
def narrationPhrases : List String :=
  let ap : String := ⟨[apos]⟩
  ["i am currently", "i" ++ ap ++ "m currently", "i am now", "i" ++ ap ++ "m now",
   "initiating the analysis", "my focus is", "the plan is",
   "i will now", "i am going to", "i" ++ ap ++ "m going to",
   "i have just", "i" ++ ap ++ "ve just", "i just",
   "i have finished", "i" ++ ap ++ "ve finished", "just finished",
   "i have hit", "i" ++ ap ++ "ve hit", "hit a snag",
   "i am grappling", "i" ++ ap ++ "m grappling",
   "i am considering", "i" ++ ap ++ "m considering",
   "i am deciding", "i" ++ ap ++ "m deciding",
   "i have decided", "i" ++ ap ++ "ve decided",
   "finalizing the strategy", "processing the parameters",
   "assessing the conundrum", "interpreting the context"]

/-- `_contains_process_narration`. -/
def contains_process_narration (text : String) : Bool :=
  let raw := (pyLower (normalizeWs text)).data
  wordAltSearch raw narrationPhrases

/-- `_critique_is_placeholder`. -/
def critique_is_placeholder (line : String) : Bool :=
  let raw := pyLower (pyStrip line)
  raw.data.isEmpty || strContains raw "insufficient signal in text"

/-- `_EVID_STOPWORDS`. -/
def EVID_STOPWORDS : List String :=
  ["the", "a", "an", "and", "or", "to", "of", "in", "on", "for", "with",
   "without", "by", "as", "is", "are", "was", "were", "be", "been", "being",
   "this", "that", "it", "its", "i", "you", "we", "they", "he", "she", "them",
   "us", "our", "your", "their", "from", "into", "over", "under", "then",
   "than", "if", "else", "when", "while", "do", "does", "did", "done", "can",
   "could", "should", "would", "may", "might", "must", "will", "just"]

/-- Maximal word-character runs of a character list (worker). -/
def wordRunsGo : List Char → List Char → List (List Char)
  | [], acc => if acc.isEmpty then [] else [acc.reverse]
  | c :: rest, acc =>
    if isWordCh c then wordRunsGo rest (c :: acc)
    else if acc.isEmpty then wordRunsGo rest []
    else acc.reverse :: wordRunsGo rest []

/-- `_evidence_tokens`: the `[A-Za-z0-9_]{5,}` tokens of the lower-cased
string, minus stopwords. (Python builds a set; only membership and emptiness
are ever used, so a list keeps the same meaning.) -/
def evidence_tokens (s : String) : List String :=
  (((wordRunsGo (pyLower s).data []).filter (fun r => 5 ≤ r.length)).map
    (fun r => (⟨r⟩ : String))).filter (fun t => t ∉ EVID_STOPWORDS)

/-- `_evidence_ok`. -/
def evidence_ok (line : String) (response_text : String) : Bool :=
  let rt := pyStrip response_text
  if rt.data.length < 20 then true
  else
    let lt := evidence_tokens line
    if lt.isEmpty then false
    else lt.any (fun t => t ∈ evidence_tokens rt)

/-- Does `\bFINAL_RANKING\s*:` match at the head of `l` (case-insensitive)? -/
def frHere (prev : Option Char) (l : List Char) : Bool :=
  !optIsWord prev && startsWithCI l "final_ranking".data &&
    (match (l.drop 13).dropWhile pyIsSpace with
     | ':' :: _ => true
     | _ => false)

/-- Leftmost index at which `\bFINAL_RANKING\s*:` matches. -/
def frFindGo (prev : Option Char) (l : List Char) (idx : Nat) : Option Nat :=
  if frHere prev l then some idx
  else
    match l with
    | [] => none
    | c :: r => frFindGo (some c) r (idx + 1)

/-- `_extract_final_ranking_line`: last informative line containing a
`FINAL_RANKING:` marker, returned from the marker on. -/
def extract_final_ranking_line (text : String) : String :=
  let raw := strip_wrappersL (pyStripL text.data)
  if raw.isEmpty then ""
  else
    let lines := ((splitlinesL raw).filter (fun ln => !(pyStripL ln).isEmpty)).map
      normalizeWsL
    let rec pick : List (List Char) → String
      | [] => ""
      | ln :: rest =>
        match frFindGo none ln 0 with
        | some i => ⟨pyStripL (ln.drop i)⟩
        | none => pick rest
    pick lines.reverse

/-- Length consumed by `Response\s*[A-Z]` (case-insensitive) at the head of
`l`, if it matches. -/
def matchRespUnit (l : List Char) : Option Nat :=
  if startsWithCI l "response".data then
    let sp := (l.drop 8).takeWhile pyIsSpace
    match l.drop (8 + sp.length) with
    | c :: _ => if isAsciiLetter c then some (8 + sp.length + 1) else none
    | [] => none
  else none

/-- Greedy total length of the `(\s*>\s*Response\s*[A-Z])+` repetitions at the
head of `l` (0 when no repetition matches). -/
def chainRepsGo (l : List Char) : Nat → Nat
  | 0 => 0
  | fuel + 1 =>
    let sp1 := l.takeWhile pyIsSpace
    match l.drop sp1.length with
    | '>' :: r2 =>
      let sp2 := r2.takeWhile pyIsSpace
      (match matchRespUnit (r2.drop sp2.length) with
       | some u =>
         let consumed := sp1.length + 1 + sp2.length + u
         consumed + chainRepsGo (l.drop consumed) fuel
       | none => 0)
    | _ => 0

/-- Full-label chain `Response\s*[A-Z](\s*>\s*Response\s*[A-Z])+` matched at
the head of `l`: total length, if at least one repetition follows. -/
def fullChainHere (l : List Char) : Option Nat :=
  match matchRespUnit l with
  | some u =>
    let reps := chainRepsGo (l.drop u) l.length
    if reps = 0 then none else some (u + reps)
  | none => none

/-- `findall`-style scan for the full-label chain pattern: the last
(leftmost-non-overlapping) match. -/
def fullChainLastGo (l : List Char) (last : Option (List Char)) :
    Nat → Option (List Char)
  | 0 => last
  | fuel + 1 =>
    match fullChainHere l with
    | some n => fullChainLastGo (l.drop n) (some (l.take n)) fuel
    | none =>
      match l with
      | [] => last
      | _ :: r => fullChainLastGo r last fuel

/-- Is one of `A`–`D` (case-insensitive)? -/
def isADLetter (c : Char) : Bool :=
  c = 'A' || c = 'B' || c = 'C' || c = 'D' ||
  c = 'a' || c = 'b' || c = 'c' || c = 'd'

/-- Cumulative lengths after each successive `\s*>\s*[A-D]` repetition at the
head of `l` (in increasing repetition count). -/
def letterRepsGo (l : List Char) : Nat → List Nat
  | 0 => []
  | fuel + 1 =>
    let sp1 := l.takeWhile pyIsSpace
    match l.drop sp1.length with
    | '>' :: r2 =>
      let sp2 := r2.takeWhile pyIsSpace
      (match r2.drop sp2.length with
       | c :: _ =>
         if isADLetter c then
           let consumed := sp1.length + 1 + sp2.length + 1
           consumed :: (letterRepsGo (l.drop consumed) fuel).map (consumed + ·)
         else []
       | [] => [])
    | _ => []

/-- `\b[A-D](\s*>\s*[A-D]){2,}\b` matched at the head of `l` (with the
regex-engine backtracking over the repetition count to satisfy the trailing
word boundary): the matched text, if any. -/
def lettersChainHere (prev : Option Char) (l : List Char) : Option (List Char) :=
  match l with
  | c :: _ =>
    if !isADLetter c || optIsWord prev then none
    else
      let ends := (letterRepsGo (l.drop 1) l.length).map (1 + ·)
      let ok := (ends.enum.filter fun p =>
        decide (2 ≤ p.1 + 1) && !optIsWord ((l.drop p.2).head?)).map Prod.snd
      match ok.getLast? with
      | some e => some (l.take e)
      | none => none
  | [] => none

/-- `re.search` for the letters-only chain: leftmost match. -/
def lettersChainSearchGo (prev : Option Char) : List Char → Option (List Char)
  | [] => none
  | c :: rest =>
    match lettersChainHere prev (c :: rest) with
    | some m => some m
    | none => lettersChainSearchGo (some c) rest

/-- Normalize the arrow glyphs as `_extract_fuzzy_ranking_chain` does
(in its exact replacement order). -/
def replaceArrows (l : List Char) : List Char :=
  replaceCharL (Char.ofNat 0xbb) '>'
    (replaceCharL (Char.ofNat 0x203a) '>'
      (replaceCharL (Char.ofNat 0xff1e) '>'
        (replaceDashGt
          (replaceCharL (Char.ofNat 0x21d2) '>'
            (replaceCharL (Char.ofNat 0x2192) '>' l)))))

/-- `_extract_fuzzy_ranking_chain`. -/
def extract_fuzzy_ranking_chain (text : String) : String :=
  let raw := strip_wrappersL (pyStripL text.data)
  if raw.isEmpty then ""
  else
    let raw := replaceArrows (normalizeWsL raw)
    match fullChainLastGo raw none raw.length with
    | some m => ⟨pyStripL m⟩
    | none =>
      match lettersChainSearchGo none raw with
      | some chain =>
        let parts := ((splitOnCharL '>' chain).map pyStripL).filter (· ≠ [])
        if parts.isEmpty then ""
        else
          String.intercalate " > "
            (parts.map fun p => "Response " ++ (⟨p.map Char.toUpper⟩ : String))
      | none => ""

end Council

namespace Council

/-- `re.search(r"response\s*([A-Z])\b", s, re.I)` at the head of `l`:
the captured letter, if the pattern matches here. -/
def respLetterHere (l : List Char) : Option Char :=
  if startsWithCI l "response".data then
    let after := l.drop 8
    let sp := after.takeWhile pyIsSpace
    match after.drop sp.length with
    | c :: rest2 =>
      if isAsciiLetter c && !optIsWord rest2.head? then some c else none
    | [] => none
  else none

/-- Leftmost `response\s*([A-Z])\b` match in `l`: the captured letter. -/
def respLetterSearch : List Char → Option Char
  | [] => none
  | c :: rest =>
    match respLetterHere (c :: rest) with
    | some x => some x
    | none => respLetterSearch rest

/-- The `norm_label` closure of `_parse_ranking_order` (given the optional
allowed set). -/
def normLabel (allowed : Option (Finset String)) (s : List Char) : Option String :=
  let s := pyStripL s
  if s.isEmpty then none
  else
    match respLetterSearch s with
    | some c =>
      let lab : String := "Response " ++ (⟨[c.toUpper]⟩ : String)
      (match allowed with
       | none => some lab
       | some A => if lab ∈ A then some lab else none)
    | none =>
      match s with
      | [c] =>
        if isAsciiLetter c then
          let lab : String := "Response " ++ (⟨[c.toUpper]⟩ : String)
          (match allowed with
           | none => some lab
           | some A => if lab ∈ A then some lab else none)
        else none
      | _ => none

/-- Order-preserving dedup of the labelled chunks. -/
def dedupKeep (xs : List String) : List String :=
  xs.foldl (fun acc x => if x ∈ acc then acc else acc ++ [x]) []

/-- Leftmost `\bFINAL_RANKING\s*:\s*(.+)$` match: the characters after the
colon (nonempty), if any position matches. -/
def frTailFindGo (prev : Option Char) : List Char → Option (List Char)
  | [] => none
  | c :: rest =>
    (if !optIsWord prev && startsWithCI (c :: rest) "final_ranking".data then
      match ((c :: rest).drop 13).dropWhile pyIsSpace with
      | ':' :: tail => if tail.isEmpty then none else some tail
      | _ => none
     else none).orElse
    (fun _ => frTailFindGo (some c) rest)

/-- The `set(allowed_labels) if allowed_labels else None` conversion (an empty
list is falsy). -/
def allowedSetOf (allowed_labels : Option (List String)) : Option (Finset String) :=
  match allowed_labels with
  | some ls => if ls.isEmpty then none else some ls.toFinset
  | none => none

/-- The labelled, deduplicated chunks of `_parse_ranking_order` before its
final allowed-set guard (empty when no `FINAL_RANKING:` tail is found). -/
def rankCandidates (allowed : Option (Finset String)) (text : String) :
    List String :=
  let raw := normalizeWsL text.data
  if raw.isEmpty then []
  else
    match frTailFindGo none raw with
    | none => []
    | some tailRaw =>
      let tail := normalizeWsL tailRaw
      if tail.isEmpty then []
      else
        let tail := replaceDashGt
          (replaceCharL (Char.ofNat 0x21d2) '>'
            (replaceCharL (Char.ofNat 0x2192) '>' tail))
        let chunks := ((splitOnCharL '>' tail).map pyStripL).filter (· ≠ [])
        dedupKeep (chunks.filterMap (normLabel allowed))

/-- The final allowed-set guard of `_parse_ranking_order`. -/
def checkAllowed : Option (Finset String) → List String → List String
  | some A, out => if out.length ≠ A.card ∨ out.toFinset ≠ A then [] else out
  | none, out => out

/-- `_parse_ranking_order`. -/
def parse_ranking_order (text : String) (allowed_labels : Option (List String)) :
    List String :=
  let allowed := allowedSetOf allowed_labels
  let out := rankCandidates allowed text
  if out.isEmpty then [] else checkAllowed allowed out

/-- `_parse_ranking_from_text`. -/
def parse_ranking_from_text (text : String)
    (allowed_labels : Option (List String)) : List String :=
  let strictLine := extract_final_ranking_line text
  if strictLine.data ≠ [] then parse_ranking_order strictLine allowed_labels
  else
    let chain := extract_fuzzy_ranking_chain text
    if chain.data = [] then []
    else parse_ranking_order ("FINAL_RANKING: " ++ chain) allowed_labels

/-- `_example_ranking`. -/
def example_ranking (labels : List String) : String :=
  match labels with
  | [] => "Response B > Response C > Response A > Response D"
  | l0 :: l1 :: l2 :: l3 :: [] =>
    l1 ++ " > " ++ l2 ++ " > " ++ l0 ++ " > " ++ l3
  | _ => String.intercalate " > " (labels.drop 1 ++ labels.take 1)

/-- The critique-line separators `[:\-–—\.]|\)` of `_coerce_stage2_5line`. -/
def isCritSep (c : Char) : Bool :=
  c = ':' || c = '-' || c = Char.ofNat 0x2013 || c = Char.ofNat 0x2014 ||
  c = '.' || c = ')'

/-- The tail of a critique-line match starting at the `[A-D]` capture:
letter, `\s*`, separator, `\s*`, nonempty body. -/
def critFromLetter (l : List Char) : Option (Char × List Char) :=
  match l with
  | c :: r2 =>
    if isADLetter c then
      let sp := r2.takeWhile pyIsSpace
      match r2.drop sp.length with
      | sep :: r3 =>
        if isCritSep sep then
          if r3.isEmpty then none else some (c.toUpper, pyStripL r3)
        else none
      | [] => none
    else none
  | [] => none

/-- Match `^\s*(?:[-*]\s*)?(?:Response\s*)?([A-D])\s*(?:[:\-–—\.]|\))\s*(.+)$`
(case-insensitive) against a normalized line: captured letter (upper-cased)
and stripped body. The optional groups are tried greedily first, with
backtracking. -/
def critLineMatch (nln : List Char) : Option (Char × List Char) :=
  let l0 := nln.dropWhile pyIsSpace
  let afterBullet : List (List Char) :=
    match l0 with
    | c :: r =>
      if c = '-' || c = '*' then [r.dropWhile pyIsSpace, l0] else [l0]
    | [] => [l0]
  let cands := afterBullet.flatMap fun b =>
    if startsWithCI b "response".data then
      [(b.drop 8).dropWhile pyIsSpace, b]
    else [b]
  (cands.filterMap critFromLetter).head?

/-- `STAGE2_EVIDENCE_MIN_LINES` (the source default; the environment override
is not modelled). -/
def STAGE2_EVIDENCE_MIN_LINES : Nat := 3

/-- The placeholder critique line of `_coerce_stage2_5line` /
`_canonical_default`. -/
def placeholderLine (letter : String) : String :=
  "Response " ++ letter ++ ": Strength: None; Flaw: Insufficient signal in text."

/-- `_coerce_stage2_5line`. -/
def coerce_stage2_5line (text : String) (labels : List String) : String :=
  if text.data.isEmpty then ""
  else
    let raw_lines := (splitlinesL text.data).filter (fun ln => !(pyStripL ln).isEmpty)
    let crit : List (String × String) := raw_lines.filterMap fun ln =>
      match critLineMatch (normalizeWsL ln) with
      | some (letter, body) =>
        let label : String := "Response " ++ (⟨[letter]⟩ : String)
        if label ∈ labels ∧ body ≠ [] then
          some (label, label ++ ": " ++ (⟨body⟩ : String))
        else none
      | none => none
    let parsed_any := parse_ranking_from_text text none
    if parsed_any.isEmpty then ""
    else
      let keep := dedupKeep (parsed_any.filter (· ∈ labels))
      let full := keep ++ labels.filter (· ∉ keep)
      if full.length ≠ labels.length ∨ full.toFinset ≠ labels.toFinset then ""
      else
        let final_line := "FINAL_RANKING: " ++ String.intercalate " > " full
        let line_for := fun (letter : String) =>
          match ((crit.filter (fun p => p.1 = "Response " ++ letter)).map Prod.snd).getLast? with
          | some s => s
          | none => placeholderLine letter
        String.intercalate "\n"
          [line_for "A", line_for "B", line_for "C", line_for "D", final_line]

/-- `_classify_quality` (returns `(partial_flag, partial_reason)`).
`responses_by_label` is the Stage-1 text per label. -/
def classify_quality (canonical_5 : String) (parsed_any : List String)
    (used_example : Bool) (responses_by_label : List (String × String)) :
    Bool × String :=
  if canonical_5.data.isEmpty then (true, "empty_canonical")
  else
    let lines := ((splitlinesL canonical_5.data).map pyStripL).filter (· ≠ [])
    if lines.length ≠ 5 then (true, "bad_line_count")
    else
      let critique_lines : List String := (lines.take 4).map (⟨·⟩)
      if critique_lines.any (fun ln =>
          let lnl := pyLower ln
          !strContains lnl "strength:" || !strContains lnl "flaw:") then
        (true, "missing_strength_flaw")
      else
        let placeholder_n := (critique_lines.filter critique_is_placeholder).length
        if 2 ≤ placeholder_n then (true, "placeholder_critiques")
        else if used_example ∧ 0 < placeholder_n then
          (true, "example_order_and_placeholder")
        else if parsed_any.length ≤ 1 then (true, "weak_ranking_signal")
        else
          let min_lines := STAGE2_EVIDENCE_MIN_LINES
          let ok_n := (["A", "B", "C", "D"].enum.filter fun p =>
            let label : String := "Response " ++ p.2
            let resp_txt := ((responses_by_label.lookup label).getD "")
            let crit_ln := (critique_lines.drop p.1).headD ""
            evidence_ok crit_ln resp_txt).length
          if ok_n < min_lines then
            (true, "missing_evidence_" ++ toString ok_n ++ "_of_4")
          else (false, "")

/-- The result quadruple of the `_acceptable` closure. -/
structure AcceptResult where
  parsed : Option (List String)
  canonical : String
  partialFlag : Bool
  reason : String
deriving Repr, DecidableEq

/-- The `_acceptable` closure of `run_one` (Stage 2): validate one judge
output against the label set and classify its quality. -/
def acceptable (txt : String) (labels : List String)
    (responses_by_label : List (String × String)) (example_line : String) :
    AcceptResult :=
  if txt.data.isEmpty then ⟨none, "", true, "empty"⟩
  else if looks_like_provider_id txt then ⟨none, "", true, "provider_id"⟩
  else if contains_process_narration txt then ⟨none, "", true, "process_narration"⟩
  else
    let parsed_any := parse_ranking_from_text txt none
    if parsed_any.isEmpty then ⟨none, "", true, "no_ranking_signal"⟩
    else
      let keep := dedupKeep (parsed_any.filter (· ∈ labels))
      let parsed_full := keep ++ labels.filter (· ∉ keep)
      if parsed_full.length ≠ labels.length ∨ parsed_full.toFinset ≠ labels.toFinset then
        ⟨none, "", true, "bad_ranking_completion"⟩
      else
        let canonical := coerce_stage2_5line txt labels
        if canonical.data.isEmpty then ⟨none, "", true, "cannot_canonicalize"⟩
        else
          let used_example := endsWithL
            (pyStripL ("FINAL_RANKING: " ++ String.intercalate " > " parsed_full).data)
            example_line.data
          let q := classify_quality canonical parsed_any used_example responses_by_label
          ⟨some parsed_full, canonical, q.1, q.2⟩

end Council

namespace Council

/-! ### `backend/council.py` — stage runners

The network is abstracted by an oracle: every outbound `_chat` call is
represented by a `CallRes`, either the text the transport returned or the
exception it raised (stringified). The per-stage `*_LAST_ERRORS` diagnostic
maps and the prompt texts sent to the models do not influence any claim and
are not modelled beyond what the control flow needs. -/

/-- The outcome of one `_chat` invocation. -/
inductive CallRes where
  | ok (text : String)
  | exc (msg : String)
deriving Repr, DecidableEq

/-- One Stage-1 result entry (a missing `synthetic` key is `false`, a missing
`synthetic_reason` is `""`). -/
structure Stage1Entry where
  model : String
  response : String
  contract_eval : ContractEval
  synthetic : Bool
  synthetic_reason : String
deriving Repr, DecidableEq

/-- The synthetic Stage-1 placeholder entry (its literal `contract_eval` dict
has no `stage`/`warnings` keys; they are modelled as `""`/`[]`). -/
def syntheticS1 (m : String) : Stage1Entry :=
  { model := m
    response := "(No response from model.)"
    contract_eval :=
      { stage := ""
        status := "FAIL"
        eligible := false
        hardFailReasons := ["Empty response"]
        warnings := [] }
    synthetic := true
    synthetic_reason := "stage1_empty_fallback" }

/-- Stage-1 `_try_once`: strip the transport text, drop provider-id artifacts,
and build a real entry when any text remains. -/
def s1_try_once (m : String) (user_prompt : String) (cs : Option String)
    (c : CallRes) : Except String (Option Stage1Entry) :=
  match c with
  | .exc e => .error e
  | .ok t =>
    let out := pyStrip t
    let out := if looks_like_provider_id out then "" else out
    if out.data.isEmpty then .ok none
    else
      .ok (some
        { model := m
          response := out
          contract_eval := evaluate_contract_compliance user_prompt out cs "stage1"
          synthetic := false
          synthetic_reason := "" })

/-- The outcome of Stage-1 `run_one` for one model: the produced entry (if
any) and the error recorded for the model (if any). -/
structure S1Out where
  item : Option Stage1Entry
  err : Option String
deriving Repr, DecidableEq

/-- Stage-1 `run_one`: one call, plus up to two `google/`-only retries (one
after an empty result, one more after a caught exception). `c1 c2 c3` are the
successive call outcomes the transport would deliver. -/
def stage1_run_one (user_prompt : String) (cs : Option String) (m : String)
    (c1 c2 c3 : CallRes) : S1Out :=
  match s1_try_once m user_prompt cs c1 with
  | .ok (some r) => ⟨some r, none⟩
  | .ok none =>
    if pyStartsWith m "google/" then
      match s1_try_once m user_prompt cs c2 with
      | .ok (some r2) => ⟨some r2, none⟩
      | .ok none => ⟨none, some "Empty response"⟩
      | .error e =>
        match s1_try_once m user_prompt cs c3 with
        | .ok (some r3) => ⟨some r3, none⟩
        | .ok none => ⟨none, some e⟩
        | .error e2 => ⟨none, some e2⟩
    else ⟨none, some "Empty response"⟩
  | .error e =>
    if pyStartsWith m "google/" then
      match s1_try_once m user_prompt cs c2 with
      | .ok (some r2) => ⟨some r2, none⟩
      | .ok none => ⟨none, some e⟩
      | .error e2 => ⟨none, some e2⟩
    else ⟨none, some e⟩

/-- Stage-1 fan-out. `config` pairs each configured model id with the outcomes
of its (up to three) transport calls; falsy (empty) model ids are filtered out
as in the source. -/
def stage1_outs (user_prompt : String) (cs : Option String)
    (config : List (String × CallRes × CallRes × CallRes)) :
    List (String × S1Out) :=
  (config.filter (fun p => !p.1.data.isEmpty)).map fun p =>
    (p.1, stage1_run_one user_prompt cs p.1 p.2.1 p.2.2.1 p.2.2.2)

/-- The Stage-1 entry list: one entry per configured model, a synthetic
placeholder where `run_one` produced nothing. -/
def stage1_entries (user_prompt : String) (cs : Option String)
    (config : List (String × CallRes × CallRes × CallRes)) : List Stage1Entry :=
  (stage1_outs user_prompt cs config).map fun p =>
    match p.2.item with
    | some r => r
    | none => syntheticS1 p.1

/-- The per-model error map recorded during Stage 1. -/
def stage1_errors (user_prompt : String) (cs : Option String)
    (config : List (String × CallRes × CallRes × CallRes)) :
    List (String × String) :=
  (stage1_outs user_prompt cs config).filterMap fun p =>
    p.2.err.map (fun e => (p.1, e))

/-- `stage1_collect_responses`: the entries, or — when no real entry survived
and at least one error was recorded — the `Stage1 all failed` exception
carrying the error map. -/
def stage1_collect_responses (user_prompt : String) (cs : Option String)
    (config : List (String × CallRes × CallRes × CallRes)) :
    Except (List (String × String)) (List Stage1Entry) :=
  let results := stage1_entries user_prompt cs config
  let errors := stage1_errors user_prompt cs config
  let real_count := (results.filter (fun r => !r.synthetic)).length
  if real_count = 0 ∧ errors ≠ [] then .error errors else .ok results

/-- One Stage-2 result entry (a missing `synthetic`/`adjudicator` key is
`false`). The Python `partial` key is spelled `isPartial`. -/
structure Stage2Entry where
  model : String
  ranking : String
  parsed_ranking : List String
  raw_ranking : String
  format_fix_used : Bool
  format_fix_output : String
  coerced : Bool
  isPartial : Bool
  partialReason : String
  synthetic : Bool
  adjudicator : Bool
deriving Repr, DecidableEq

/-- `_canonical_default`: four placeholder critiques plus the given order. -/
def canonical_default (order : List String) : String :=
  String.intercalate "\n"
    [placeholderLine "A", placeholderLine "B", placeholderLine "C",
     placeholderLine "D", "FINAL_RANKING: " ++ String.intercalate " > " order]

/-- `_partial_fallback` (closing over the current `format_fix_output`). -/
def partialFallback (m : String) (labels : List String)
    (format_fix_output : String) (reason raw : String) : Stage2Entry :=
  { model := m
    ranking := canonical_default labels
    parsed_ranking := labels
    raw_ranking := pyStrip raw
    format_fix_used := true
    format_fix_output := pyStrip format_fix_output
    coerced := true
    isPartial := true
    partialReason := reason
    synthetic := false
    adjudicator := false }

/-- `_call_with_google_retry`: one call (strip + provider-id filter), retried
once for `google/` models when the text comes back empty. Returns the text and
the next unconsumed oracle index, or the escaped exception. -/
def callWithRetry (isGoogle : Bool) (oracle : Nat → CallRes) (i : Nat) :
    Except String (String × Nat) :=
  match oracle i with
  | .exc e => .error e
  | .ok t =>
    let o := pyStrip t
    let o := if looks_like_provider_id o then "" else o
    if o.data.isEmpty ∧ isGoogle then
      match oracle (i + 1) with
      | .exc e => .error e
      | .ok t2 =>
        let o2 := pyStrip t2
        let o2 := if looks_like_provider_id o2 then "" else o2
        .ok (o2, i + 2)
    else .ok (o, i + 1)

/-- The tail of the Stage-2 repair ladder, from the strict re-judge attempt on
(attempts 1, 2 and the one-line repair): `out` is attempt 0's text (used for
the fallback raw chain), `i` the next oracle index. -/
def stage2_strict_phase (m : String) (labels : List String)
    (responses_by_label : List (String × String)) (example_line : String)
    (oracle : Nat → CallRes) (out : String) (i : Nat) : Stage2Entry :=
  let g := pyStartsWith m "google/"
  match callWithRetry g oracle i with
  | .error e => partialFallback m labels "" "stage2_exception_fallback" e
  | .ok (outFix, i3) =>
    let aFix := acceptable outFix labels responses_by_label example_line
    match aFix.parsed with
    | some pFix =>
      { model := m
        ranking := aFix.canonical
        parsed_ranking := pFix
        raw_ranking := outFix
        format_fix_used := true
        format_fix_output := outFix
        coerced := decide (aFix.canonical ≠ pyStrip outFix)
        isPartial := aFix.partialFlag
        partialReason := if aFix.partialFlag then aFix.reason else ""
        synthetic := false
        adjudicator := false }
    | none =>
      match callWithRetry g oracle i3 with
      | .error e => partialFallback m labels outFix "stage2_exception_fallback" e
      | .ok (outRw, i4) =>
        let aRw := acceptable outRw labels responses_by_label example_line
        match aRw.parsed with
        | some pRw =>
          { model := m
            ranking := aRw.canonical
            parsed_ranking := pRw
            raw_ranking := outRw
            format_fix_used := true
            format_fix_output := outFix
            coerced := decide (aRw.canonical ≠ pyStrip outRw)
            isPartial := aRw.partialFlag
            partialReason := if aRw.partialFlag then aRw.reason else ""
            synthetic := false
            adjudicator := false }
        | none =>
          match callWithRetry g oracle i4 with
          | .error e => partialFallback m labels outFix "stage2_exception_fallback" e
          | .ok (out2, _) =>
            let parsed2_any := parse_ranking_from_text out2 none
            let a2 := acceptable out2 labels responses_by_label example_line
            match a2.parsed with
            | some p2 =>
              { model := m
                ranking := a2.canonical
                parsed_ranking := p2
                raw_ranking := out2
                format_fix_used := true
                format_fix_output := outFix
                coerced := true
                isPartial := true
                partialReason :=
                  if a2.reason ≠ "" then a2.reason
                  else if parsed2_any ≠ [] then "repair_only_ranking"
                  else "repair_empty"
                synthetic := false
                adjudicator := false }
            | none =>
              partialFallback m labels outFix "stage2_failed_all_attempts"
                (if outRw.data ≠ [] then outRw
                 else if outFix.data ≠ [] then outFix else out)

/-- Stage-2 `run_one`: the single-judge repair ladder. `oracle n` is the
outcome of the judge's `n`-th transport call. Attempts in order: normal judge,
evidence retry (only after an acceptable-but-partial attempt 0), strict
re-judge, self-rewrite, one-line repair; a caught exception or total failure
produces a `partialFallback`. -/
def stage2_run_one (m : String) (labels : List String)
    (responses_by_label : List (String × String)) (example_line : String)
    (oracle : Nat → CallRes) : Stage2Entry :=
  let g := pyStartsWith m "google/"
  match callWithRetry g oracle 0 with
  | .error e => partialFallback m labels "" "stage2_exception_fallback" e
  | .ok (out, i1) =>
    let a0 := acceptable out labels responses_by_label example_line
    match a0.parsed with
    | some p0 =>
      if !a0.partialFlag then
        { model := m
          ranking := a0.canonical
          parsed_ranking := p0
          raw_ranking := out
          format_fix_used := false
          format_fix_output := ""
          coerced := decide (a0.canonical ≠ pyStrip out)
          isPartial := false
          partialReason := ""
          synthetic := false
          adjudicator := false }
      else
        match callWithRetry g oracle i1 with
        | .error e => partialFallback m labels "" "stage2_exception_fallback" e
        | .ok (outEv, i2) =>
          let aEv := acceptable outEv labels responses_by_label example_line
          match aEv.parsed with
          | some pEv =>
            { model := m
              ranking := aEv.canonical
              parsed_ranking := pEv
              raw_ranking := outEv
              format_fix_used := true
              format_fix_output := outEv
              coerced := decide (aEv.canonical ≠ pyStrip outEv)
              isPartial := aEv.partialFlag
              partialReason := if aEv.partialFlag then aEv.reason else ""
              synthetic := false
              adjudicator := false }
          | none => stage2_strict_phase m labels responses_by_label example_line oracle out i2
    | none => stage2_strict_phase m labels responses_by_label example_line oracle out i1

end Council

namespace Council

/-- `_dedupe_preserve_order` (drops falsy items and later duplicates). -/
def dedupe_preserve_order (items : List String) : List String :=
  items.foldl
    (fun acc x => if x.data.isEmpty then acc else if x ∈ acc then acc else acc ++ [x])
    []

/-- `Response A`, `Response B`, … for the `idx`-th Stage-1 entry. -/
def labelFor (idx : Nat) : String := "Response " ++ (⟨[Char.ofNat (65 + idx)]⟩ : String)

/-- `_label_responses`: the `label → model` association in Stage-1 order
(a falsy model id is replaced by `model_{idx}`). -/
def label_to_model_of (stage1_results : List Stage1Entry) : List (String × String) :=
  stage1_results.enum.map fun p =>
    (labelFor p.1, if p.2.model.data.isEmpty then "model_" ++ toString p.1 else p.2.model)

/-- The `responses_by_label` map that Stage-2 `run_one` builds. -/
def responses_by_label_of (stage1_results : List Stage1Entry) : List (String × String) :=
  stage1_results.enum.map fun p => (labelFor p.1, p.2.response)

/-- Python `int(str)`: optional sign and a nonempty digit string after
stripping, else failure. -/
def pyParseInt (s : String) : Option Int :=
  let t := pyStripL s.data
  let core : Option (Bool × List Char) :=
    match t with
    | '-' :: r => some (true, r)
    | '+' :: r => some (false, r)
    | r => some (false, r)
  match core with
  | some (neg, ds) =>
    if ds.isEmpty ∨ ¬(ds.all isDigitCh) then none
    else
      let n := ds.foldl (fun acc c => acc * 10 + (c.toNat - 48)) (0 : Nat)
      some (if neg then -(n : Int) else (n : Int))
  | none => none

/-- Lines 51–58 of `council.py`: the value the
`STAGE2_ADJUDICATE_MIN_TOP1_VOTES` try/except block computes from the
environment variable. -/
def min_top1_votes_env (env : Option String) : Int :=
  let raw := match env with
    | none => "0"
    | some e => if e.data.isEmpty then "0" else e
  (pyParseInt (pyStrip raw)).getD 0

/-- Line 61 of `council.py`: the module-level rebinding that overwrites the
environment-derived value with the constant `0`. -/
def STAGE2_ADJUDICATE_MIN_TOP1_VOTES : Int := 0

/-- `STAGE2_ADJUDICATE_ENABLED` (source default `"1"`). -/
def STAGE2_ADJUDICATE_ENABLED : Bool := true

/-- `STAGE2_ADJUDICATE_MIN_NONPARTIAL` (source default). -/
def STAGE2_ADJUDICATE_MIN_NONPARTIAL : Nat := 3

/-- Insertion-ordered counter bump (Python `counts[k] = counts.get(k, 0) + 1`). -/
def bumpCount (d : List (String × Nat)) (k : String) : List (String × Nat) :=
  if (d.lookup k).isSome then
    d.map (fun p => if p.1 = k then (p.1, p.2 + 1) else p)
  else d ++ [(k, 1)]

/-- `_top1_votes`: top-1 vote counts (insertion-ordered) and the total, over
non-synthetic, non-partial entries whose top label is known. -/
def top1_votes (labels : List String) (rs : List Stage2Entry) :
    List (String × Nat) × Nat :=
  rs.foldl
    (fun acc x =>
      if x.synthetic || x.isPartial then acc
      else
        match x.parsed_ranking with
        | [] => acc
        | top :: _ =>
          if top ∈ labels then (bumpCount acc.1 top, acc.2 + 1) else acc)
    ([], 0)

/-- The plurality count (`max(vote_counts.values())`; 0 when empty). -/
def maxCount (counts : List (String × Nat)) : Nat :=
  counts.foldl (fun b p => max b p.2) 0

/-- The adjudication trigger decided after the Stage-2 join (with the
`STAGE2_ADJUDICATE_MIN_TOP1_VOTES` override value passed explicitly):
enough usable judges, at least two distinct top-1 labels, and a plurality
below the required threshold. -/
def stage2_adjudication_gate (minTop1 : Int) (minUsable : Nat)
    (labels : List String) (results : List Stage2Entry) : Bool :=
  let vt := top1_votes labels results
  decide (minUsable ≤ vt.2) && decide (2 ≤ vt.1.length) &&
    (let required : Int := if 0 < minTop1 then minTop1 else if 4 ≤ vt.2 then 3 else 2
     decide ((maxCount vt.1 : Int) < required))

/-- `STAGE2_ADJUDICATOR_MODEL` (source default). -/
def STAGE2_ADJUDICATOR_MODEL : String := "anthropic/claude-opus-4.5"

/-- `STAGE2_ADJUDICATOR_FALLBACKS` (source default list). -/
def STAGE2_ADJUDICATOR_FALLBACKS : List String :=
  ["google/gemini-3-pro-preview", "openai/gpt-4.1", "anthropic/claude-haiku-3.5"]

/-- `stage2_collect_rankings`: run the deduplicated judges, then (when the
consensus gate fires) run and append one adjudicator entry. `oracles i` is the
call oracle of the `i`-th judge; `adjOracle` serves the adjudicator pass. -/
def stage2_collect_rankings (stage1_results : List Stage1Entry)
    (models : List String) (oracles : Nat → Nat → CallRes)
    (adjModel : String) (adjFallbacks : List String) (adjOracle : Nat → CallRes) :
    List Stage2Entry × List (String × String) :=
  let ms := dedupe_preserve_order models
  let l2m := label_to_model_of stage1_results
  let labels := l2m.map Prod.fst
  let rbl := responses_by_label_of stage1_results
  let example_line := example_ranking labels
  let results := ms.enum.map fun p =>
    stage2_run_one p.2 labels rbl example_line (oracles p.1)
  if STAGE2_ADJUDICATE_ENABLED &&
      stage2_adjudication_gate STAGE2_ADJUDICATE_MIN_TOP1_VOTES
        STAGE2_ADJUDICATE_MIN_NONPARTIAL labels results then
    let am :=
      if adjModel ∈ ms then
        match (adjFallbacks.filter (· ∉ ms)).head? with
        | some fm => fm
        | none => adjModel
      else adjModel
    let adj0 := stage2_run_one am labels rbl example_line adjOracle
    let name := if adj0.model.data.isEmpty then am else adj0.model
    let adj :=
      { adj0 with
        adjudicator := true
        model := if name ∈ ms then name ++ " (adjudicator)" else name }
    (results ++ [adj], l2m)
  else (results, l2m)

/-! ### `backend/council.py` — rank aggregation -/

/-- One aggregate row (`average_rank` is `ℚ` for Python `float`). -/
structure Aggregate where
  model : String
  average_rank : ℚ
  rankings_count : Nat
  disqualified : Bool
  disqualify_reasons : List String
deriving Repr, DecidableEq

/-- Insertion-ordered dict bump with addition
(Python `d[k] = d.get(k, 0) + v`). -/
def bumpQ (d : List (String × ℚ)) (k : String) (v : ℚ) : List (String × ℚ) :=
  if (d.lookup k).isSome then
    d.map (fun p => if p.1 = k then (p.1, p.2 + v) else p)
  else d ++ [(k, v)]

/-- The stable ascending sort Python `list.sort(key=…)` performs, as a
left fold of insert-after-equals. -/
def stableInsert (le : α → α → Bool) (a : α) : List α → List α
  | [] => [a]
  | b :: l => if le b a then b :: stableInsert le a l else a :: b :: l

/-- Stable sort by a boolean total preorder. -/
def stableSort (le : α → α → Bool) (l : List α) : List α :=
  l.foldl (fun acc x => stableInsert le x acc) []

/-- The sort key order `(disqualified, average_rank)` (tuple order,
`False < True`). -/
def aggLe (a b : Aggregate) : Bool :=
  (!a.disqualified && b.disqualified) ||
    (a.disqualified = b.disqualified && decide (a.average_rank ≤ b.average_rank))

/-- The model a label is ranked for: `label_to_model[label]`, a falsy id
counting as absent (the aggregator's `if mid:` guard). -/
def labelModel (label_to_model : List (String × String)) (lab : String) :
    Option String :=
  (label_to_model.lookup lab).bind fun mid =>
    if mid.data.isEmpty then none else some mid

/-- The models ranked by one usable voter, in ranking order
(`ordered_models`: mapped through `label_to_model`, falsy ids dropped). -/
def orderedModels (label_to_model : List (String × String))
    (parsed : List String) : List String :=
  parsed.filterMap (labelModel label_to_model)

/-- One ranked position's contribution: bump sum and count for the ranked
model unless it is disqualified. -/
def voterStep (disq : List (String × List String))
    (sc : List (String × ℚ) × List (String × Nat)) (p : Nat × String) :
    List (String × ℚ) × List (String × Nat) :=
  if (disq.lookup p.2).isSome then sc
  else (bumpQ sc.1 p.2 ((p.1 : ℚ) + 1), bumpCount sc.2 p.2)

/-- The per-voter accumulation of `calculate_aggregate_rankings` (skips
synthetic/partial voters and empty rankings). -/
def voterFold (label_to_model : List (String × String))
    (disq : List (String × List String))
    (sc : List (String × ℚ) × List (String × Nat)) (voter : Stage2Entry) :
    List (String × ℚ) × List (String × Nat) :=
  if voter.synthetic || voter.isPartial then sc
  else
    match voter.parsed_ranking with
    | [] => sc
    | parsed => (orderedModels label_to_model parsed).enum.foldl (voterStep disq) sc

/-- The `(rank_sums, rank_counts)` accumulation of
`calculate_aggregate_rankings` (continued). -/
def rankSumsCounts (stage2_results : List Stage2Entry)
    (label_to_model : List (String × String))
    (disq : List (String × List String)) :
    List (String × ℚ) × List (String × Nat) :=
  stage2_results.foldl (voterFold label_to_model disq) ([], [])

/-- The disqualified-model map: models whose contract eval is present and
explicitly ineligible, with their hard-fail reasons (or the `Hard FAIL`
placeholder). -/
def disqualifiedModels
    (contract_evals_by_model : List (String × Option ContractEval)) :
    List (String × List String) :=
  contract_evals_by_model.foldl
    (fun acc p =>
      match p.2 with
      | some ev =>
        if ev.eligible = false then
          acc ++ [(p.1, if ev.hardFailReasons ≠ [] then ev.hardFailReasons else ["Hard FAIL"])]
        else acc
      | none => acc)
    []

/-- The voted-model rows of `calculate_aggregate_rankings` (models with a
positive rank count; `average_rank = sum / count`). -/
def agg1Of (sc : List (String × ℚ) × List (String × Nat)) : List Aggregate :=
  sc.1.filterMap fun p =>
    let c := (sc.2.lookup p.1).getD 0
    if 0 < c then
      some
        { model := p.1
          average_rank := p.2 / (c : ℚ)
          rankings_count := c
          disqualified := false
          disqualify_reasons := [] }
    else none

/-- The voted rows followed by the sentinel-9998 rows for disqualified
models. -/
def agg2Of (sc : List (String × ℚ) × List (String × Nat))
    (disq : List (String × List String)) : List Aggregate :=
  agg1Of sc ++ disq.map fun p =>
    { model := p.1
      average_rank := 9998
      rankings_count := (sc.2.lookup p.1).getD 0
      disqualified := true
      disqualify_reasons := p.2 }

/-- The coverage pass of `calculate_aggregate_rankings`: add a sentinel-9999
row for a labelled model that has no row yet. -/
def agg3Step (disq : List (String × List String))
    (contract_evals_by_model : List (String × Option ContractEval))
    (acc : List Aggregate) (p : String × String) : List Aggregate :=
  if acc.any (fun a => a.model = p.2) then acc
  else
    let dq := (disq.lookup p.2).isSome
    acc ++
      [{ model := p.2
         average_rank := 9999
         rankings_count := 0
         disqualified := dq
         disqualify_reasons :=
           if dq then
             match contract_evals_by_model.lookup p.2 with
             | some (some ev) => ev.hardFailReasons
             | _ => []
           else [] }]

/-- `calculate_aggregate_rankings`. -/
def calculate_aggregate_rankings (stage2_results : List Stage2Entry)
    (label_to_model : List (String × String))
    (contract_evals_by_model : List (String × Option ContractEval)) :
    List Aggregate :=
  let disq := disqualifiedModels contract_evals_by_model
  let sc := rankSumsCounts stage2_results label_to_model disq
  stableSort aggLe
    (label_to_model.foldl (agg3Step disq contract_evals_by_model)
      (agg2Of sc disq))

end Council

namespace Council

/-! ### Specification-side definitions

Definitions in this section follow the wording of the specification (for
refinement comparisons against the code-derived definitions above). -/

/-- Is a Stage-2 voter usable for aggregation (neither synthetic nor
partial)? -/
def usable (v : Stage2Entry) : Bool := !(v.synthetic || v.isPartial)

/-- Code-side per-model rank sum, written as a sum over the positions of each
usable voter's `ordered_models` list. -/
def codeRankSum (label_to_model : List (String × String))
    (disq : List (String × List String)) (voters : List Stage2Entry)
    (m : String) : ℚ :=
  (voters.map fun v =>
    if usable v then
      ((orderedModels label_to_model v.parsed_ranking).enum.map fun p =>
        if p.2 = m ∧ (disq.lookup m).isNone then ((p.1 : ℚ) + 1) else 0).sum
    else 0).sum

/-- Code-side per-model vote count. -/
def codeRankCount (label_to_model : List (String × String))
    (disq : List (String × List String)) (voters : List Stage2Entry)
    (m : String) : Nat :=
  (voters.map fun v =>
    if usable v then
      ((orderedModels label_to_model v.parsed_ranking).enum.map fun p =>
        if p.2 = m ∧ (disq.lookup m).isNone then 1 else 0).sum
    else 0).sum

/-- Per the specification: for each usable judge and each 0-indexed position
`i` of its parsed ranking, the model that position ranks receives `i + 1`
rank-sum weight, unless the model is disqualified. -/
def claimRankSum (label_to_model : List (String × String))
    (disq : List (String × List String)) (voters : List Stage2Entry)
    (m : String) : ℚ :=
  (voters.map fun v =>
    if usable v then
      (v.parsed_ranking.enum.map fun p =>
        if labelModel label_to_model p.2 = some m ∧ (disq.lookup m).isNone then
          ((p.1 : ℚ) + 1)
        else 0).sum
    else 0).sum

/-- Per the specification: each such position also adds one to the ranked
model's count. -/
def claimRankCount (label_to_model : List (String × String))
    (disq : List (String × List String)) (voters : List Stage2Entry)
    (m : String) : Nat :=
  (voters.map fun v =>
    if usable v then
      (v.parsed_ranking.enum.map fun p =>
        if labelModel label_to_model p.2 = some m ∧ (disq.lookup m).isNone then 1
        else 0).sum
    else 0).sum

/-- Per the specification (§4.7): the adjudication trigger with the
`STAGE2_ADJUDICATE_MIN_TOP1_VOTES` environment variable honoured as the
required-threshold override. -/
def specAdjudicationGate (envMinTop1 : Option String) (labels : List String)
    (results : List Stage2Entry) : Bool :=
  stage2_adjudication_gate (min_top1_votes_env envMinTop1)
    STAGE2_ADJUDICATE_MIN_NONPARTIAL labels results

/-- Per the claim wording for the rubric gate: the prompt requests
`Start with the rubric table` (case-insensitive). -/
def claimRubricTrigger (user_prompt : String) : Bool :=
  strContains (pyLower user_prompt) "start with the rubric table"

/-- Per the claim wording: a markdown table — a line with `|` separators
together with a header-separator line matching `\|\s*:?-{3,}:?\s*\|` — within
the first 30 non-blank lines of the response. -/
def claimTableEarly (text : String) : Bool :=
  let nb := ((((splitlinesL text.data).map pyStripL).filter (· ≠ [])).take 30)
  (nb.any fun ln => ln.contains '|') && (nb.any fun ln => anyPosition sep1Here ln)

/-! ### Concrete evaluation inputs (used by counterexamples and witnesses) -/

/-- The four standard labels. -/
def cLabs : List String := ["Response A", "Response B", "Response C", "Response D"]

/-- Four distinctive Stage-1 response texts, keyed by label. -/
def cRbl : List (String × String) :=
  [("Response A", "The quickest fix is to restart the ingest worker and add a retry budget for the parser stage."),
   ("Response B", "Schema validation should happen before ingestion; add a contract check with explicit thresholds."),
   ("Response C", "Monitoring dashboards need a leading indicator; define a pass threshold for weekly activation."),
   ("Response D", "Start with a minimal prototype and measure activation before building the full pipeline here.")]

/-- The example ranking for the standard labels (`B > C > A > D`). -/
def cExl : String := example_ranking cLabs

/-- A bare final-ranking line in default order (acceptable but placeholder —
hence partial — once coerced). -/
def cBareDefault : String :=
  "FINAL_RANKING: Response A > Response B > Response C > Response D"

/-- A bare final-ranking line in reversed order. -/
def cBareReversed : String :=
  "FINAL_RANKING: Response D > Response C > Response B > Response A"

/-- Oracle: attempt 0 returns the bare default-order line, the next attempt
the bare reversed line. -/
def cOracleTwoPartials : Nat → CallRes := fun n =>
  match n with
  | 0 => CallRes.ok cBareDefault
  | 1 => CallRes.ok cBareReversed
  | _ => CallRes.ok ""

/-- A fully well-formed 5-line judge output grounded in `cRbl` (evidence
overlap on every line, non-example order, no placeholders). -/
def cGoodJudge : String :=
  "Response A: Strength: concrete restart plus retry budget for ingest; Flaw: skips schema validation.\n" ++
  "Response B: Strength: schema contract check with explicit thresholds; Flaw: ignores monitoring needs.\n" ++
  "Response C: Strength: leading indicator with activation threshold; Flaw: no concrete parser details.\n" ++
  "Response D: Strength: minimal prototype measuring activation first; Flaw: defers the pipeline work.\n" ++
  "FINAL_RANKING: Response A > Response B > Response C > Response D"

/-- Oracle answering every call with the well-formed judge output. -/
def cOracleGood : Nat → CallRes := fun _ => CallRes.ok cGoodJudge

/-- Oracle raising on every call. -/
def cOracleExc : Nat → CallRes := fun _ => CallRes.exc "boom"

/-- A neutral passing contract eval (for constructed Stage-1 fixtures). -/
def cEvalPass : ContractEval :=
  { stage := "stage1", status := "PASS", eligible := true,
    hardFailReasons := [], warnings := [] }

/-- Four concrete Stage-1 entries whose responses are `cRbl`. -/
def cStage1 : List Stage1Entry :=
  [{ model := "openai/gpt-5.2",
     response := "The quickest fix is to restart the ingest worker and add a retry budget for the parser stage.",
     contract_eval := cEvalPass, synthetic := false, synthetic_reason := "" },
   { model := "google/gemini-3-pro-preview",
     response := "Schema validation should happen before ingestion; add a contract check with explicit thresholds.",
     contract_eval := cEvalPass, synthetic := false, synthetic_reason := "" },
   { model := "anthropic/claude-sonnet-4.5",
     response := "Monitoring dashboards need a leading indicator; define a pass threshold for weekly activation.",
     contract_eval := cEvalPass, synthetic := false, synthetic_reason := "" },
   { model := "x-ai/grok-4.1-fast",
     response := "Start with a minimal prototype and measure activation before building the full pipeline here.",
     contract_eval := cEvalPass, synthetic := false, synthetic_reason := "" }]

/-- A minimal Stage-2 voter fixture. -/
def cVoter (pr : List String) (pp sy : Bool) : Stage2Entry :=
  { model := "judge", ranking := "", parsed_ranking := pr, raw_ranking := "",
    format_fix_used := false, format_fix_output := "", coerced := false,
    isPartial := pp, partialReason := "", synthetic := sy, adjudicator := false }

/-- Label-to-model fixture for the aggregator. -/
def cL2M : List (String × String) :=
  [("Response A", "mA"), ("Response B", "mB"), ("Response C", "mC"), ("Response D", "mD")]

/-- Voter fixture: two usable `B`-first voters, one synthetic and one partial
`D`-first voter (both ignored by the aggregator), and a usable `C`-first
voter. -/
def cVoters : List Stage2Entry :=
  [cVoter ["Response B", "Response A", "Response C", "Response D"] false false,
   cVoter ["Response B", "Response C", "Response A", "Response D"] false false,
   cVoter ["Response D", "Response C", "Response B", "Response A"] true false,
   cVoter ["Response D", "Response C", "Response B", "Response A"] false true,
   cVoter ["Response C", "Response B", "Response D", "Response A"] false false]

/-- Contract-eval fixture: `mC` disqualified with a reason, `mE` disqualified
with an empty reason list, `mA` eligible. -/
def cEvals : List (String × Option ContractEval) :=
  [("mC", some { stage := "stage1", status := "FAIL", eligible := false,
                 hardFailReasons := ["bad stuff"], warnings := [] }),
   ("mE", some { stage := "stage1", status := "FAIL", eligible := false,
                 hardFailReasons := [], warnings := [] }),
   ("mA", some cEvalPass)]

/-- Four-voter fixture with top-1 votes `A:3, B:1` (plurality 3 of 4). -/
def cVotesA3B1 : List Stage2Entry :=
  [cVoter ["Response A", "Response B", "Response C", "Response D"] false false,
   cVoter ["Response A", "Response C", "Response B", "Response D"] false false,
   cVoter ["Response A", "Response D", "Response B", "Response C"] false false,
   cVoter ["Response B", "Response A", "Response C", "Response D"] false false]

end Council

namespace Council

/-- A response whose markdown table sits on non-blank lines 11–12 (within the
first 30 non-blank lines, but past the pipe-scan window of the code). -/
def cLateTable : String :=
  "one\ntwo\nthree\nfour\nfive\nsix\nseven\neight\nnine\nten\n| a | b |\n| --- | --- |"

/-- Stage-1 config: one model whose only call returns empty text (no
exception anywhere). -/
def c6ConfigEmpty : List (String × CallRes × CallRes × CallRes) :=
  [("openai/gpt-5.2", CallRes.ok "", CallRes.ok "", CallRes.ok "")]

/-- Stage-1 config: one failing model (exception) and one succeeding model. -/
def c6ConfigMixed : List (String × CallRes × CallRes × CallRes) :=
  [("openai/gpt-5.2", CallRes.exc "Timeout: boom", CallRes.ok "", CallRes.ok ""),
   ("x-ai/grok-4.1-fast", CallRes.ok "A useful answer with enough text.",
    CallRes.ok "", CallRes.ok "")]

end Council

namespace Council

/-! ### Claims -/

/-- C1 (counterexample): `parse_contract_ids` does not remove duplicates of a
non-base contract id — the stack `eldercare_safety_v1,eldercare_safety_v1`
resolves with the duplicate kept, so the resolved stack is not duplicate-free
as the claim states. -/
theorem parse_contract_ids_keeps_duplicates :
    parse_contract_ids (some "eldercare_safety_v1,eldercare_safety_v1") =
      ["factory_truth_v1", "eldercare_safety_v1", "eldercare_safety_v1"] ∧
    ¬ (parse_contract_ids (some "eldercare_safety_v1,eldercare_safety_v1")).Nodup := by
  decide

/-- C1 (amended): for every comma-separated contract-stack string, the
resolved stack is the factory base contract id followed by the parsed
non-base ids in their original order with duplicates preserved (only
occurrences of the base id itself are collapsed into the mandatory leading
one); in particular the factory base contract id is always the first
element. -/
theorem parse_contract_ids_base_first (cs : Option String) :
    parse_contract_ids cs =
      factoryBaseId :: (splitContractIds cs).filter (fun c => c ≠ factoryBaseId) := by
  unfold parse_contract_ids
  by_cases h : factoryBaseId ∈ splitContractIds cs
  · simp [h]
  · simp only [h, if_neg, ite_false]
    refine congrArg (factoryBaseId :: ·) ?_
    exact (List.filter_eq_self.mpr fun a ha => by
      simp only [ne_eq, decide_eq_true_eq]
      rintro rfl
      exact h ha).symm

/-- C9 (counterexample): the role registry is keyed by the exact model id,
not the vendor prefix — an unknown `openai/` id falls back to the generalist
default, and the two `anthropic/` ids map to two different personas, so no
prefix-determined fixed role assignment exists. -/
theorem get_role_spec_not_by_prefix :
    get_role_spec "openai/o3" = DEFAULT_ROLE ∧
    (get_role_spec "anthropic/claude-sonnet-4.5").role = "Critic" ∧
    (get_role_spec "anthropic/claude-opus-4.5").role = "Chairman" ∧
    (get_role_spec "anthropic/claude-sonnet-4.5").role ≠
      (get_role_spec "anthropic/claude-opus-4.5").role := by
  decide

/-- C9 (amended): the registry maps exactly five model ids to fixed personas
(Analyst, Researcher, Critic, Provocateur, Chairman), and every other model
id — whatever its vendor prefix — maps to the generalist default role. -/
theorem get_role_spec_exact_ids :
    (∀ m : String, m ∉ MODEL_ROLES.map Prod.fst → get_role_spec m = DEFAULT_ROLE) ∧
    (get_role_spec "openai/gpt-5.2").role = "Analyst" ∧
    (get_role_spec "google/gemini-3-pro-preview").role = "Researcher" ∧
    (get_role_spec "anthropic/claude-sonnet-4.5").role = "Critic" ∧
    (get_role_spec "x-ai/grok-4.1-fast").role = "Provocateur" ∧
    (get_role_spec "anthropic/claude-opus-4.5").role = "Chairman" := by
  refine ⟨?_, by decide, by decide, by decide, by decide, by decide⟩
  intro m hm
  simp only [ MODEL_ROLES, List.map, List.mem_cons, List.not_mem_nil, or_false,
    not_or] at hm
  obtain ⟨h1, h2, h3, h4, h5⟩ := hm
  simp [get_role_spec, MODEL_ROLES, List.lookup,
    beq_eq_false_iff_ne.mpr h1, beq_eq_false_iff_ne.mpr h2,
    beq_eq_false_iff_ne.mpr h3, beq_eq_false_iff_ne.mpr h4,
    beq_eq_false_iff_ne.mpr h5]

/-- C9 (witness): the amended fallback statement applied at the unknown id
`openai/o3`. -/
theorem get_role_spec_exact_ids_witness :
    get_role_spec "openai/o3" = DEFAULT_ROLE :=
  get_role_spec_exact_ids.1 "openai/o3" (by decide)

/-- C3 (code_bug): lines 51–58 of `council.py` parse
`STAGE2_ADJUDICATE_MIN_TOP1_VOTES` from the environment, but line 61 rebinds
the module constant to `0`, so the override is dead. With the variable set to
`5` and four usable judges voting `A, A, A, B`, the spec-side gate (override
honoured: threshold 5, plurality 3 < 5) adjudicates, while the gate the code
actually evaluates (threshold back to the default `3 if V ≥ 4 else 2`) does
not. -/
theorem adjudicate_min_top1_override_dead :
    min_top1_votes_env (some "5") = 5 ∧
    STAGE2_ADJUDICATE_MIN_TOP1_VOTES = 0 ∧
    specAdjudicationGate (some "5") cLabs cVotesA3B1 = true ∧
    stage2_adjudication_gate STAGE2_ADJUDICATE_MIN_TOP1_VOTES
      STAGE2_ADJUDICATE_MIN_NONPARTIAL cLabs cVotesA3B1 = false := by
  decide

/-- C7 (counterexample): with `allowed_labels` provided as the empty list
(falsy in Python), the allowed-set guard is skipped entirely: the parser
returns two labels, which is neither the empty list nor a list with the
provided set's size. -/
theorem parse_ranking_empty_allowed_escape :
    parse_ranking_from_text "FINAL_RANKING: A > B" (some []) =
      ["Response A", "Response B"] ∧
    parse_ranking_from_text "FINAL_RANKING: A > B" (some []) ≠ [] ∧
    (parse_ranking_from_text "FINAL_RANKING: A > B" (some [])).length ≠
      ([] : List String).length := by
  decide

/-- The allowed-set guard of `_parse_ranking_order` either rejects to `[]` or
certifies exact set size and membership. -/
theorem checkAllowed_cases (A : Finset String) (out : List String) :
    checkAllowed (some A) out = [] ∨
      ((checkAllowed (some A) out).length = A.card ∧
       (checkAllowed (some A) out).toFinset = A) := by
  have hrw : checkAllowed (some A) out =
      if out.length ≠ A.card ∨ out.toFinset ≠ A then [] else out := rfl
  rw [hrw]
  split_ifs with h
  · exact Or.inl rfl
  · push_neg at h
    exact Or.inr ⟨h.1, h.2⟩

/-- `_parse_ranking_order` under a non-empty allowed list returns `[]` or a
list with exactly the allowed set's size and membership. -/
theorem parse_ranking_order_allowed (t : String) (l : List String) (h : l ≠ []) :
    parse_ranking_order t (some l) = [] ∨
      ((parse_ranking_order t (some l)).length = l.toFinset.card ∧
       (parse_ranking_order t (some l)).toFinset = l.toFinset) := by
  have hA : allowedSetOf (some l) = some l.toFinset := by
    simp [allowedSetOf, List.isEmpty_iff, h]
  have hrw : parse_ranking_order t (some l) =
      if (rankCandidates (allowedSetOf (some l)) t).isEmpty then []
      else checkAllowed (allowedSetOf (some l))
        (rankCandidates (allowedSetOf (some l)) t) := rfl
  rw [hrw, hA]
  by_cases he : (rankCandidates (some l.toFinset) t).isEmpty
  · simp [he]
  · simp only [he, Bool.false_eq_true, if_false]
    exact checkAllowed_cases l.toFinset (rankCandidates (some l.toFinset) t)

/-- C7 (amended): `parse_ranking` takes the last `FINAL_RANKING` line
(case-insensitive), falls back to the fuzzy chain, splits the tail on `>`,
normalizes and deduplicates preserving order; whenever a *non-empty*
`allowed_labels` list is provided, the result is either exactly a list with
the allowed set's size and membership, or the empty list (an empty
`allowed_labels` list is falsy in Python and disables the guard). -/
theorem parse_ranking_from_text_allowed (text : String) (l : List String)
    (h : l ≠ []) :
    parse_ranking_from_text text (some l) = [] ∨
      ((parse_ranking_from_text text (some l)).length = l.toFinset.card ∧
       (parse_ranking_from_text text (some l)).toFinset = l.toFinset) := by
  have hrw : parse_ranking_from_text text (some l) =
      if (extract_final_ranking_line text).data ≠ [] then
        parse_ranking_order (extract_final_ranking_line text) (some l)
      else if (extract_fuzzy_ranking_chain text).data = [] then []
      else parse_ranking_order
        ("FINAL_RANKING: " ++ extract_fuzzy_ranking_chain text) (some l) := rfl
  rw [hrw]
  split_ifs with h1 h2
  · exact parse_ranking_order_allowed _ l h
  · exact Or.inl rfl
  · exact parse_ranking_order_allowed _ l h

/-- C7 (witness): the amended statement applied at a strict final-ranking
line over the four standard labels (where the parse succeeds exactly). -/
theorem parse_ranking_from_text_allowed_witness :
    parse_ranking_from_text cBareDefault (some cLabs) = [] ∨
      ((parse_ranking_from_text cBareDefault (some cLabs)).length =
        cLabs.toFinset.card ∧
       (parse_ranking_from_text cBareDefault (some cLabs)).toFinset =
        cLabs.toFinset) :=
  parse_ranking_from_text_allowed cBareDefault cLabs (by decide)

end Council

namespace Council

/-- Every hard-fail reason produced by `_detect_prohibited_claims` is one of
its four constant strings. -/
theorem prohibited_reason_mem (t r : String)
    (hr : r ∈ ((detect_prohibited_claims t).map Prod.snd).flatten) :
    r = "Contains guarantee / absolute prevention language." ∨
    r = "Mentions Accessibility Service/API automation (disallowed)." ∨
    r = "Mentions background/always-on monitoring (disallowed)." ∨
    r = "Contains dosing-like instruction with a specific quantity (disallowed)." := by
  simp only [detect_prohibited_claims] at hr
  split_ifs at hr <;> simp_all <;> tauto

/-- C8 (counterexample): the rubric-table hard fail is not scoped to prompts
requesting `Start with the rubric table` — a prompt merely mentioning
`rubric table` triggers it; and the detection window is not the first 30
non-blank lines — a table on non-blank lines 11–12 (within the claimed
window) still hard-fails because the pipe scan stops at the 10th non-blank
line. -/
theorem rubric_hard_fail_cex :
    claimRubricTrigger "Grade with a rubric table per criterion." = false ∧
    rubricFailReason ∈ (evaluate_contract_compliance
      "Grade with a rubric table per criterion."
      "A plain answer with no table." none "stage1").hardFailReasons ∧
    claimRubricTrigger "Start with the rubric table." = true ∧
    claimTableEarly cLateTable = true ∧
    rubricFailReason ∈ (evaluate_contract_compliance
      "Start with the rubric table." cLateTable none "stage1").hardFailReasons := by
  decide

/-- C8 (amended): `evaluate_contract_compliance` emits the rubric-table hard
fail exactly when the prompt contains `rubric table` (case-insensitively;
`start with the rubric table` is one such occurrence) and the response fails
the table heuristic: among the stripped non-blank lines drawn from the first
30 raw lines there must be at least two, one of the first 10 must contain
`|`, and one of the first 15 must match `\|\s*:?-{3,}:?\s*\|` or
`-{3,}\s*\|`. Prompts not containing `rubric table` never trigger this hard
fail. -/
theorem rubric_hard_fail_iff (p r : String) (cs : Option String) (stage : String) :
    (rubricFailReason ∈ (evaluate_contract_compliance p r cs stage).hardFailReasons) ↔
      (needs_rubric_table_first p = true ∧ contains_markdown_table_early r 30 = false) := by
  have hmain : (evaluate_contract_compliance p r cs stage).hardFailReasons =
      (if needs_rubric_table_first p then
        (if !contains_markdown_table_early r 30 then [rubricFailReason] else [])
       else []) ++ ((detect_prohibited_claims r).map Prod.snd).flatten := rfl
  rw [hmain]
  constructor
  · intro hmem
    rcases List.mem_append.mp hmem with h | h
    · split_ifs at h with h1 h2
      · refine ⟨h1, ?_⟩
        simpa using h2
      · simp at h
      · simp at h
    · exfalso
      rcases prohibited_reason_mem r rubricFailReason h with h' | h' | h' | h' <;>
        exact absurd h' (by decide)
  · rintro ⟨h1, h2⟩
    refine List.mem_append.mpr (Or.inl ?_)
    simp [h1, h2]

end Council

namespace Council

/-- When the `_acceptable` closure accepts (returns a parsed order), that
order has exactly the label set's length and membership (the
`bad_ranking_completion` guard). -/
theorem acceptable_parsed_complete (txt : String) (labels : List String)
    (rbl : List (String × String)) (ex : String) (p : List String)
    (h : (acceptable txt labels rbl ex).parsed = some p) :
    p.length = labels.length ∧ p.toFinset = labels.toFinset := by
  simp only [acceptable] at h
  split_ifs at h with h1 h2 h3 h4 h5 h6
  all_goals simp_all
  constructor
  · rw [← h]; simpa using h5.1
  · rw [← h]; simpa using h5.2

/-- Every entry produced by the strict/rewrite/repair tail of the ladder
carries a parsed ranking with the label set's length and membership. -/
theorem strict_phase_parsed (m : String) (labels : List String)
    (rbl : List (String × String)) (ex : String) (oracle : Nat → CallRes)
    (out : String) (i : Nat) :
    (stage2_strict_phase m labels rbl ex oracle out i).parsed_ranking.length =
      labels.length ∧
    (stage2_strict_phase m labels rbl ex oracle out i).parsed_ranking.toFinset =
      labels.toFinset := by
  cases hc : callWithRetry (pyStartsWith m "google/") oracle i with
  | error e => simp [stage2_strict_phase, hc, partialFallback]
  | ok oi =>
    obtain ⟨outFix, i3⟩ := oi
    cases hp : (acceptable outFix labels rbl ex).parsed with
    | some pFix =>
      simp only [stage2_strict_phase, hc, hp]
      exact acceptable_parsed_complete _ _ _ _ _ hp
    | none =>
      cases hc2 : callWithRetry (pyStartsWith m "google/") oracle i3 with
      | error e => simp [stage2_strict_phase, hc, hp, hc2, partialFallback]
      | ok oi2 =>
        obtain ⟨outRw, i4⟩ := oi2
        cases hp2 : (acceptable outRw labels rbl ex).parsed with
        | some pRw =>
          simp only [stage2_strict_phase, hc, hp, hc2, hp2]
          exact acceptable_parsed_complete _ _ _ _ _ hp2
        | none =>
          cases hc3 : callWithRetry (pyStartsWith m "google/") oracle i4 with
          | error e =>
            simp [stage2_strict_phase, hc, hp, hc2, hp2, hc3, partialFallback]
          | ok oi3 =>
            obtain ⟨out2, i5⟩ := oi3
            cases hp3 : (acceptable out2 labels rbl ex).parsed with
            | some p2 =>
              simp only [stage2_strict_phase, hc, hp, hc2, hp2, hc3, hp3]
              exact acceptable_parsed_complete _ _ _ _ _ hp3
            | none =>
              simp [stage2_strict_phase, hc, hp, hc2, hp2, hc3, hp3, partialFallback]

/-- Every entry produced by Stage-2 `run_one` carries a parsed ranking with
the label set's length and membership. -/
theorem run_one_parsed (m : String) (labels : List String)
    (rbl : List (String × String)) (ex : String) (oracle : Nat → CallRes) :
    (stage2_run_one m labels rbl ex oracle).parsed_ranking.length =
      labels.length ∧
    (stage2_run_one m labels rbl ex oracle).parsed_ranking.toFinset =
      labels.toFinset := by
  cases hc : callWithRetry (pyStartsWith m "google/") oracle 0 with
  | error e => simp [stage2_run_one, hc, partialFallback]
  | ok oi =>
    obtain ⟨out, i1⟩ := oi
    cases hp : (acceptable out labels rbl ex).parsed with
    | none =>
      simp only [stage2_run_one, hc, hp]
      exact strict_phase_parsed m labels rbl ex oracle out i1
    | some p0 =>
      cases hflag : (acceptable out labels rbl ex).partialFlag with
      | false =>
        simp only [stage2_run_one, hc, hp, hflag, Bool.not_false, if_true]
        exact acceptable_parsed_complete _ _ _ _ _ hp
      | true =>
        cases hc2 : callWithRetry (pyStartsWith m "google/") oracle i1 with
        | error e =>
          simp [stage2_run_one, hc, hp, hflag, hc2, partialFallback]
        | ok oi2 =>
          obtain ⟨outEv, i2⟩ := oi2
          cases hpEv : (acceptable outEv labels rbl ex).parsed with
          | some pEv =>
            simp only [stage2_run_one, hc, hp, hflag, hc2, hpEv, Bool.not_true,
              if_false, Bool.false_eq_true]
            exact acceptable_parsed_complete _ _ _ _ _ hpEv
          | none =>
            simp only [stage2_run_one, hc, hp, hflag, hc2, hpEv, Bool.not_true,
              if_false, Bool.false_eq_true]
            exact strict_phase_parsed m labels rbl ex oracle out i2

/-- C4 (confirmed): every Stage-2 entry with `partial = false` — adjudicator
entries included — has a parsed ranking whose length and membership equal the
full label set (in fact the ladder guarantees this for every entry it
emits). -/
theorem stage2_collect_parsed (stage1 : List Stage1Entry) (models : List String)
    (oracles : Nat → Nat → CallRes) (adjM : String) (adjF : List String)
    (adjO : Nat → CallRes) (e : Stage2Entry)
    (he : e ∈ (stage2_collect_rankings stage1 models oracles adjM adjF adjO).1)
    (hnp : e.isPartial = false) :
    e.parsed_ranking.length = ((label_to_model_of stage1).map Prod.fst).length ∧
    e.parsed_ranking.toFinset =
      ((label_to_model_of stage1).map Prod.fst).toFinset := by
  simp only [stage2_collect_rankings] at he
  split at he
  · rcases List.mem_append.mp he with h | h
    · rcases List.mem_map.mp h with ⟨p, _, rfl⟩
      exact run_one_parsed _ _ _ _ _
    · rcases List.mem_singleton.mp h with rfl
      exact run_one_parsed _ _ _ _ _
  · rcases List.mem_map.mp he with ⟨p, _, rfl⟩
    exact run_one_parsed _ _ _ _ _

set_option maxRecDepth 100000 in
/-- C4 (witness): a judge answering with a fully-grounded 5-line output
yields a non-partial entry in the Stage-2 result list, with the permutation
property instantiated there. -/
theorem stage2_collect_parsed_witness :
    (stage2_run_one "openai/gpt-5.2" cLabs cRbl cExl cOracleGood).parsed_ranking.length =
      ((label_to_model_of cStage1).map Prod.fst).length ∧
    (stage2_run_one "openai/gpt-5.2" cLabs cRbl cExl cOracleGood).parsed_ranking.toFinset =
      ((label_to_model_of cStage1).map Prod.fst).toFinset :=
  stage2_collect_parsed cStage1 ["openai/gpt-5.2"] (fun _ => cOracleGood)
    "anthropic/claude-opus-4.5" [] cOracleGood
    (stage2_run_one "openai/gpt-5.2" cLabs cRbl cExl cOracleGood)
    (by decide) (by decide)

end Council

namespace Council

/-- C10 (confirmed): no exception escapes a judge's ladder — a raising call
is caught and turned into the partial fallback entry (shown here for the
first call; every `.error` branch of the ladder returns the same
`partialFallback` with reason `stage2_exception_fallback`), the fallback's
fields are the claimed ones (`partial = true`, `coerced = true`,
`parsed_ranking` the full label list in label order, canonical 5-line default
ranking), and the Stage-2 join yields exactly one entry per deduplicated
judge model plus at most one appended adjudicator entry. -/
theorem stage2_no_exception_escapes :
    (∀ (m : String) (labels : List String) (rbl : List (String × String))
        (ex : String) (oracle : Nat → CallRes) (e : String),
        oracle 0 = CallRes.exc e →
        stage2_run_one m labels rbl ex oracle =
          partialFallback m labels "" "stage2_exception_fallback" e) ∧
    (∀ (m : String) (labels : List String) (ffo reason raw : String),
        (partialFallback m labels ffo reason raw).isPartial = true ∧
        (partialFallback m labels ffo reason raw).coerced = true ∧
        (partialFallback m labels ffo reason raw).parsed_ranking = labels ∧
        (partialFallback m labels ffo reason raw).ranking =
          canonical_default labels) ∧
    (∀ (stage1 : List Stage1Entry) (models : List String)
        (oracles : Nat → Nat → CallRes) (adjM : String) (adjF : List String)
        (adjO : Nat → CallRes),
        ((stage2_collect_rankings stage1 models oracles adjM adjF adjO).1).length =
            (dedupe_preserve_order models).length ∨
        ((stage2_collect_rankings stage1 models oracles adjM adjF adjO).1).length =
            (dedupe_preserve_order models).length + 1) := by
  refine ⟨?_, ?_, ?_⟩
  · intro m labels rbl ex oracle e h
    have hc : callWithRetry (pyStartsWith m "google/") oracle 0 =
        Except.error e := by
      simp [callWithRetry, h]
    simp [stage2_run_one, hc]
  · intro m labels ffo reason raw
    exact ⟨rfl, rfl, rfl, rfl⟩
  · intro stage1 models oracles adjM adjF adjO
    simp only [stage2_collect_rankings]
    split
    · right
      simp
    · left
      simp

/-- C10 (witness): an oracle that raises on every call produces exactly the
partial fallback entry. -/
theorem stage2_no_exception_escapes_witness :
    stage2_run_one "openai/gpt-5.2" cLabs cRbl cExl cOracleExc =
      partialFallback "openai/gpt-5.2" cLabs "" "stage2_exception_fallback" "boom" :=
  stage2_no_exception_escapes.1 "openai/gpt-5.2" cLabs cRbl cExl cOracleExc
    "boom" rfl

/-- C2 (counterexample): attempt 0 (the bare default-order final ranking) is
acceptable and partial — the earliest acceptable (partial) attempt, with
parsed order `A > B > C > D` — yet `run_one` returns the *evidence retry*
attempt instead (raw output the reversed line, parsed `D > C > B > A`,
partial), so the ladder does not return the earliest acceptable (partial)
attempt as claimed. -/
theorem stage2_not_earliest_partial :
    (acceptable cBareDefault cLabs cRbl cExl).parsed = some cLabs ∧
    (acceptable cBareDefault cLabs cRbl cExl).partialFlag = true ∧
    (acceptable cBareReversed cLabs cRbl cExl).parsed =
      some ["Response D", "Response C", "Response B", "Response A"] ∧
    (acceptable cBareReversed cLabs cRbl cExl).partialFlag = true ∧
    (stage2_run_one "openai/gpt-5.2" cLabs cRbl cExl cOracleTwoPartials).raw_ranking =
      cBareReversed ∧
    (stage2_run_one "openai/gpt-5.2" cLabs cRbl cExl cOracleTwoPartials).parsed_ranking =
      ["Response D", "Response C", "Response B", "Response A"] ∧
    (stage2_run_one "openai/gpt-5.2" cLabs cRbl cExl cOracleTwoPartials).parsed_ranking ≠
      cLabs ∧
    (stage2_run_one "openai/gpt-5.2" cLabs cRbl cExl cOracleTwoPartials).isPartial =
      true := by
  decide

end Council

namespace Council

set_option maxRecDepth 100000 in
/-- C2 (amended): the repair ladder returns the first acceptable attempt in
attempt order — not the earliest acceptable *partial* one. Precisely: an
acceptable non-partial attempt 0 is returned as a non-partial entry; an
acceptable-but-partial attempt 0 is never returned — the evidence retry runs
and its result is returned whenever it is acceptable, with its *own* partial
flag; when attempt 0 is unacceptable, the first acceptable later attempt
(shown for the strict re-judge) is returned with its own partial flag; and
when every attempt fails acceptability, a synthetic partial fallback with the
canonical default ranking in label order and placeholder critiques is
returned. -/
theorem stage2_ladder_selection (m : String) (labels : List String)
    (rbl : List (String × String)) (ex : String) (oracle : Nat → CallRes) :
    (∀ out i1 p, callWithRetry (pyStartsWith m "google/") oracle 0 = .ok (out, i1) →
      (acceptable out labels rbl ex).parsed = some p →
      (acceptable out labels rbl ex).partialFlag = false →
      stage2_run_one m labels rbl ex oracle =
        { model := m, ranking := (acceptable out labels rbl ex).canonical,
          parsed_ranking := p, raw_ranking := out, format_fix_used := false,
          format_fix_output := "",
          coerced := decide ((acceptable out labels rbl ex).canonical ≠ pyStrip out),
          isPartial := false, partialReason := "", synthetic := false,
          adjudicator := false }) ∧
    (∀ out i1 p outEv i2 pEv,
      callWithRetry (pyStartsWith m "google/") oracle 0 = .ok (out, i1) →
      (acceptable out labels rbl ex).parsed = some p →
      (acceptable out labels rbl ex).partialFlag = true →
      callWithRetry (pyStartsWith m "google/") oracle i1 = .ok (outEv, i2) →
      (acceptable outEv labels rbl ex).parsed = some pEv →
      stage2_run_one m labels rbl ex oracle =
        { model := m, ranking := (acceptable outEv labels rbl ex).canonical,
          parsed_ranking := pEv, raw_ranking := outEv, format_fix_used := true,
          format_fix_output := outEv,
          coerced := decide ((acceptable outEv labels rbl ex).canonical ≠ pyStrip outEv),
          isPartial := (acceptable outEv labels rbl ex).partialFlag,
          partialReason :=
            if (acceptable outEv labels rbl ex).partialFlag then
              (acceptable outEv labels rbl ex).reason
            else "",
          synthetic := false, adjudicator := false }) ∧
    (∀ out i1 outFix i3 pFix,
      callWithRetry (pyStartsWith m "google/") oracle 0 = .ok (out, i1) →
      (acceptable out labels rbl ex).parsed = none →
      callWithRetry (pyStartsWith m "google/") oracle i1 = .ok (outFix, i3) →
      (acceptable outFix labels rbl ex).parsed = some pFix →
      stage2_run_one m labels rbl ex oracle =
        { model := m, ranking := (acceptable outFix labels rbl ex).canonical,
          parsed_ranking := pFix, raw_ranking := outFix, format_fix_used := true,
          format_fix_output := outFix,
          coerced := decide ((acceptable outFix labels rbl ex).canonical ≠ pyStrip outFix),
          isPartial := (acceptable outFix labels rbl ex).partialFlag,
          partialReason :=
            if (acceptable outFix labels rbl ex).partialFlag then
              (acceptable outFix labels rbl ex).reason
            else "",
          synthetic := false, adjudicator := false }) ∧
    (∀ out i1 outFix i3 outRw i4 out2 i5,
      callWithRetry (pyStartsWith m "google/") oracle 0 = .ok (out, i1) →
      (acceptable out labels rbl ex).parsed = none →
      callWithRetry (pyStartsWith m "google/") oracle i1 = .ok (outFix, i3) →
      (acceptable outFix labels rbl ex).parsed = none →
      callWithRetry (pyStartsWith m "google/") oracle i3 = .ok (outRw, i4) →
      (acceptable outRw labels rbl ex).parsed = none →
      callWithRetry (pyStartsWith m "google/") oracle i4 = .ok (out2, i5) →
      (acceptable out2 labels rbl ex).parsed = none →
      stage2_run_one m labels rbl ex oracle =
        partialFallback m labels outFix "stage2_failed_all_attempts"
          (if outRw.data ≠ [] then outRw
           else if outFix.data ≠ [] then outFix else out)) := by
  refine ⟨?_, ?_, ?_, ?_⟩
  · intro out i1 p h0 hp hflag
    simp [stage2_run_one, h0, hp, hflag]
  · intro out i1 p outEv i2 pEv h0 hp hflag h1 hpEv
    simp [stage2_run_one, h0, hp, hflag, h1, hpEv]
  · intro out i1 outFix i3 pFix h0 hp h1 hpFix
    simp [stage2_run_one, stage2_strict_phase, h0, hp, h1, hpFix]
  · intro out i1 outFix i3 outRw i4 out2 i5 h0 hp h1 hpFix h2 hpRw h3 hp2
    simp [stage2_run_one, stage2_strict_phase, h0, hp, h1, hpFix, h2, hpRw, h3, hp2]

set_option maxRecDepth 100000 in
/-- C2 (witness): the first-acceptable-non-partial case instantiated at the
fully-grounded judge output. -/
theorem stage2_ladder_selection_witness :
    stage2_run_one "openai/gpt-5.2" cLabs cRbl cExl cOracleGood =
      { model := "openai/gpt-5.2",
        ranking := (acceptable cGoodJudge cLabs cRbl cExl).canonical,
        parsed_ranking := cLabs, raw_ranking := cGoodJudge,
        format_fix_used := false, format_fix_output := "",
        coerced := decide ((acceptable cGoodJudge cLabs cRbl cExl).canonical ≠ pyStrip cGoodJudge),
        isPartial := false, partialReason := "", synthetic := false,
        adjudicator := false } :=
  (stage2_ladder_selection "openai/gpt-5.2" cLabs cRbl cExl cOracleGood).1
    cGoodJudge 1 cLabs rfl (by decide) (by decide)

end Council

namespace Council

/-- A successful Stage-1 `_try_once` entry is never synthetic. -/
theorem s1_try_once_synthetic (m up : String) (cs : Option String) (c : CallRes)
    (r : Stage1Entry) (h : s1_try_once m up cs c = .ok (some r)) :
    r.synthetic = false := by
  unfold s1_try_once at h
  split at h
  · exact absurd h (by simp)
  · dsimp only at h
    split_ifs at h <;> simp_all
    rw [← h]

/-- Stage-1 `run_one` produces an item exactly when it records no error, and
a produced item is never synthetic. -/
theorem stage1_run_one_shape (up : String) (cs : Option String)
    (m : String) (c1 c2 c3 : CallRes) :
    ((stage1_run_one up cs m c1 c2 c3).item = none ↔
      (stage1_run_one up cs m c1 c2 c3).err.isSome = true) ∧
    (∀ r : Stage1Entry, (stage1_run_one up cs m c1 c2 c3).item = some r →
      r.synthetic = false) := by
  cases h1 : s1_try_once m up cs c1 with
  | ok o1 =>
    cases o1 with
    | some r1 =>
      simp only [stage1_run_one, h1]
      exact ⟨by simp, fun r hr => by
        simp only [Option.some.injEq] at hr
        exact hr ▸ s1_try_once_synthetic m up cs c1 r1 h1⟩
    | none =>
      by_cases hg : pyStartsWith m "google/"
      · cases h2 : s1_try_once m up cs c2 with
        | ok o2 =>
          cases o2 with
          | some r2 =>
            simp only [stage1_run_one, h1, hg, if_true, h2]
            exact ⟨by simp, fun r hr => by
              simp only [Option.some.injEq] at hr
              exact hr ▸ s1_try_once_synthetic m up cs c2 r2 h2⟩
          | none =>
            simp only [stage1_run_one, h1, hg, if_true, h2]
            exact ⟨by simp, by simp⟩
        | error e =>
          cases h3 : s1_try_once m up cs c3 with
          | ok o3 =>
            cases o3 with
            | some r3 =>
              simp only [stage1_run_one, h1, hg, if_true, h2, h3]
              exact ⟨by simp, fun r hr => by
                simp only [Option.some.injEq] at hr
                exact hr ▸ s1_try_once_synthetic m up cs c3 r3 h3⟩
            | none =>
              simp only [stage1_run_one, h1, hg, if_true, h2, h3]
              exact ⟨by simp, by simp⟩
          | error e2 =>
            simp only [stage1_run_one, h1, hg, if_true, h2, h3]
            exact ⟨by simp, by simp⟩
      · simp only [stage1_run_one, h1, hg, if_false]
        exact ⟨by simp, by simp⟩
  | error e =>
    by_cases hg : pyStartsWith m "google/"
    · cases h2 : s1_try_once m up cs c2 with
      | ok o2 =>
        cases o2 with
        | some r2 =>
          simp only [stage1_run_one, h1, hg, if_true, h2]
          exact ⟨by simp, fun r hr => by
            simp only [Option.some.injEq] at hr
            exact hr ▸ s1_try_once_synthetic m up cs c2 r2 h2⟩
        | none =>
          simp only [stage1_run_one, h1, hg, if_true, h2]
          exact ⟨by simp, by simp⟩
      | error e2 =>
        simp only [stage1_run_one, h1, hg, if_true, h2]
        exact ⟨by simp, by simp⟩
    · simp only [stage1_run_one, h1, hg, if_false]
      exact ⟨by simp, by simp⟩

/-- The Stage-1 entry list is all-synthetic exactly when every model's
`run_one` produced nothing. -/
theorem stage1_all_synthetic_iff (up : String) (cs : Option String)
    (config : List (String × CallRes × CallRes × CallRes)) :
    ((stage1_entries up cs config).all (fun e => e.synthetic) = true) ↔
      ∀ p ∈ stage1_outs up cs config, p.2.item = none := by
  unfold stage1_entries
  rw [List.all_eq_true]
  constructor
  · intro h p hp
    obtain ⟨q, hq, hpq⟩ := List.mem_map.mp hp
    cases hi : p.2.item with
    | none => rfl
    | some r =>
      exfalso
      have hr := h _ (List.mem_map_of_mem _ hp)
      simp only [hi] at hr
      have hitem : (stage1_run_one up cs q.1 q.2.1 q.2.2.1 q.2.2.2).item = some r := by
        rw [← hpq] at hi
        exact hi
      have hsyn := (stage1_run_one_shape up cs q.1 q.2.1 q.2.2.1 q.2.2.2).2 r hitem
      rw [hsyn] at hr
      exact Bool.false_ne_true hr
  · intro h e he
    obtain ⟨p, hp, rfl⟩ := List.mem_map.mp he
    simp only [h p hp]
    rfl

/-- The Stage-1 error map is non-empty exactly when some model recorded an
error. -/
theorem stage1_errors_ne_iff (up : String) (cs : Option String)
    (config : List (String × CallRes × CallRes × CallRes)) :
    (stage1_errors up cs config ≠ []) ↔
      ∃ p ∈ stage1_outs up cs config, p.2.err.isSome = true := by
  unfold stage1_errors
  rw [ne_eq, List.filterMap_eq_nil_iff]
  push_neg
  constructor
  · rintro ⟨p, hp, hne⟩
    refine ⟨p, hp, ?_⟩
    cases he : p.2.err with
    | none => exact absurd (by simp [he]) hne
    | some e => simp
  · rintro ⟨p, hp, hs⟩
    refine ⟨p, hp, ?_⟩
    cases he : p.2.err with
    | none => rw [he] at hs; exact absurd hs (by simp)
    | some e => simp [he]

/-- C6 (amended): `stage1_collect_responses` always builds exactly one entry
per configured generator model, a synthetic placeholder (response
`(No response from model.)`, `synthetic = true`, contract-eval status `FAIL`,
`eligible = false`) standing in for any model that produced no usable text,
and it raises the Stage-1-all-failed error exactly when every entry is
synthetic and at least one model was configured — every failed model records
an error, whether it failed with an exception or merely an empty response;
otherwise it returns the mixed list. -/
theorem stage1_collect_spec (up : String) (cs : Option String)
    (config : List (String × CallRes × CallRes × CallRes)) :
    (stage1_entries up cs config).length =
      (config.filter (fun p => !p.1.data.isEmpty)).length ∧
    (∀ m : String, (syntheticS1 m).response = "(No response from model.)" ∧
      (syntheticS1 m).synthetic = true ∧
      (syntheticS1 m).contract_eval.status = "FAIL" ∧
      (syntheticS1 m).contract_eval.eligible = false) ∧
    (∀ e ∈ stage1_entries up cs config, e.synthetic = true → e = syntheticS1 e.model) ∧
    ((∃ errs, stage1_collect_responses up cs config = .error errs) ↔
      ((stage1_entries up cs config).all (fun e => e.synthetic) = true ∧
       stage1_entries up cs config ≠ [])) ∧
    (¬(((stage1_entries up cs config).all (fun e => e.synthetic)) = true ∧
        stage1_entries up cs config ≠ []) →
      stage1_collect_responses up cs config = .ok (stage1_entries up cs config)) := by
  have hco : stage1_collect_responses up cs config =
      if ((stage1_entries up cs config).filter (fun r => !r.synthetic)).length = 0 ∧
          stage1_errors up cs config ≠ [] then
        Except.error (stage1_errors up cs config)
      else Except.ok (stage1_entries up cs config) := rfl
  have hreal_iff :
      (((stage1_entries up cs config).filter (fun r => !r.synthetic)).length = 0) ↔
        ((stage1_entries up cs config).all (fun e => e.synthetic) = true) := by
    rw [List.length_eq_zero, List.filter_eq_nil_iff, List.all_eq_true]
    simp
  have hne_iff : (stage1_entries up cs config ≠ []) ↔
      stage1_outs up cs config ≠ [] := by
    unfold stage1_entries
    simp [List.map_eq_nil_iff]
  have herr_of : ((stage1_entries up cs config).all (fun e => e.synthetic) = true) →
      stage1_entries up cs config ≠ [] → stage1_errors up cs config ≠ [] := by
    intro hall hne
    have hitems := (stage1_all_synthetic_iff up cs config).mp hall
    have houts : stage1_outs up cs config ≠ [] := (hne_iff).mp hne
    obtain ⟨p, hp⟩ := List.exists_mem_of_ne_nil _ houts
    obtain ⟨q, hq, hpq⟩ := List.mem_map.mp hp
    have hnone := hitems p hp
    have herr : p.2.err.isSome = true := by
      rw [← hpq] at hnone ⊢
      exact (stage1_run_one_shape up cs q.1 q.2.1 q.2.2.1 q.2.2.2).1.mp hnone
    exact (stage1_errors_ne_iff up cs config).mpr ⟨p, hp, herr⟩
  have hne_of_err : stage1_errors up cs config ≠ [] →
      stage1_entries up cs config ≠ [] := by
    intro herrne
    obtain ⟨p, hp, _⟩ := (stage1_errors_ne_iff up cs config).mp herrne
    rw [hne_iff]
    intro h0
    rw [h0] at hp
    exact List.not_mem_nil p hp
  refine ⟨by simp [stage1_entries, stage1_outs], fun m => ⟨rfl, rfl, rfl, rfl⟩,
    ?_, ?_, ?_⟩
  · intro e he hsyn
    obtain ⟨p, hp, rfl⟩ := List.mem_map.mp he
    obtain ⟨q, hq, hpq⟩ := List.mem_map.mp hp
    cases hi : p.2.item with
    | none =>
      simp only [hi]
      rfl
    | some r =>
      exfalso
      simp only [hi] at hsyn
      have hitem : (stage1_run_one up cs q.1 q.2.1 q.2.2.1 q.2.2.2).item = some r := by
        rw [← hpq] at hi
        exact hi
      have := (stage1_run_one_shape up cs q.1 q.2.1 q.2.2.1 q.2.2.2).2 r hitem
      rw [this] at hsyn
      exact Bool.false_ne_true hsyn
  · constructor
    · rintro ⟨errs, herr⟩
      rw [hco] at herr
      split_ifs at herr with hcond
      obtain ⟨hreal, herrne⟩ := hcond
      exact ⟨hreal_iff.mp hreal, hne_of_err herrne⟩
    · rintro ⟨hall, hne⟩
      refine ⟨stage1_errors up cs config, ?_⟩
      rw [hco, if_pos ⟨hreal_iff.mpr hall, herr_of hall hne⟩]
  · intro hnot
    rw [hco, if_neg]
    rintro ⟨hreal, herrne⟩
    exact hnot ⟨hreal_iff.mp hreal, hne_of_err herrne⟩

/-- C6 (counterexample): a single generator that merely returns empty text —
no exception is ever raised, the three call outcomes are all `CallRes.ok` —
still makes Stage 1 raise the all-failed error, with `Empty response` (not an
exception) as the recorded error; so "raises iff every entry is synthetic
and at least one exception was caught" is false. -/
theorem stage1_raises_without_exception :
    c6ConfigEmpty = [("openai/gpt-5.2", CallRes.ok "", CallRes.ok "", CallRes.ok "")] ∧
    stage1_collect_responses "user question" none c6ConfigEmpty =
      .error [("openai/gpt-5.2", "Empty response")] := by
  constructor
  · rfl
  · rfl

/-- C6 (witness): the amended statement applied at a mixed config (one
exception-failing model, one succeeding model): not all entries are
synthetic, so the stage returns the mixed list. -/
theorem stage1_collect_spec_witness :
    stage1_collect_responses "user question" none c6ConfigMixed =
      .ok (stage1_entries "user question" none c6ConfigMixed) :=
  (stage1_collect_spec "user question" none c6ConfigMixed).2.2.2.2 (by decide)

/-! ### C5 — rank aggregation correctness -/

theorem lookup_nil {β : Type} (k : String) :
    (([] : List (String × β)).lookup k) = none := rfl

theorem lookup_cons {β : Type} (a : String) (b : β) (t : List (String × β)) (k : String) :
    ((a, b) :: t).lookup k = if k = a then some b else t.lookup k := by
  by_cases h : k = a
  · simp [List.lookup, h]
  · simp [List.lookup, beq_eq_false_iff_ne.mpr h, h]

theorem lookup_mapUpd {β : Type} (d : List (String × β)) (f : β → β) (k k' : String) :
    (d.map (fun p => if p.1 = k then (p.1, f p.2) else p)).lookup k' =
      if k' = k then (d.lookup k).map f else d.lookup k' := by
  induction d with
  | nil => simp [lookup_nil]
  | cons hd t ih =>
    obtain ⟨a, b⟩ := hd
    simp only [List.map_cons]
    by_cases hak : a = k
    · subst hak
      by_cases hk' : k' = a <;> simp [lookup_cons, hk', ih]
    · by_cases hk' : k' = a
      · subst hk'
        simp [lookup_cons, hak, Ne.symm hak, ih]
      · simp [lookup_cons, hak, hk', Ne.symm hak, ih]

theorem lookup_mapAddQ (d : List (String × ℚ)) (v : ℚ) (k k' : String) :
    (d.map (fun p => if p.1 = k then (p.1, p.2 + v) else p)).lookup k' =
      if k' = k then (d.lookup k).map (fun x => x + v) else d.lookup k' := by
  have h := lookup_mapUpd d (fun x => x + v) k k'
  simpa using h

theorem lookup_mapAddNat (d : List (String × Nat)) (k k' : String) :
    (d.map (fun p => if p.1 = k then (p.1, p.2 + 1) else p)).lookup k' =
      if k' = k then (d.lookup k).map (fun x => x + 1) else d.lookup k' := by
  have h := lookup_mapUpd d (fun x => x + 1) k k'
  simpa using h

theorem lookup_append_one {β : Type} (d : List (String × β)) (k k' : String) (v : β) :
    (d ++ [(k, v)]).lookup k' =
      if (d.lookup k').isSome then d.lookup k'
      else if k' = k then some v else none := by
  induction d with
  | nil => by_cases h : k' = k <;> simp [lookup_nil, lookup_cons, h]
  | cons hd t ih =>
    obtain ⟨a, b⟩ := hd
    by_cases hk' : k' = a
    · subst hk'
      simp [lookup_cons]
    · simp only [List.cons_append, lookup_cons, if_neg hk']
      exact ih

theorem mem_of_lookup_some {β : Type} {d : List (String × β)} {k : String} {v : β}
    (h : d.lookup k = some v) : (k, v) ∈ d := by
  induction d with
  | nil => simp [lookup_nil] at h
  | cons hd t ih =>
    obtain ⟨a, b⟩ := hd
    by_cases hk : k = a
    · subst hk
      simp [lookup_cons] at h
      simp [h]
    · simp [lookup_cons, hk] at h
      exact List.mem_cons_of_mem _ (ih h)

theorem lookup_isSome_of_mem {β : Type} {d : List (String × β)} {k : String} {v : β}
    (h : (k, v) ∈ d) : (d.lookup k).isSome := by
  induction d with
  | nil => simp at h
  | cons hd t ih =>
    obtain ⟨a, b⟩ := hd
    rcases List.mem_cons.mp h with h1 | h1
    · cases h1
      simp [lookup_cons]
    · by_cases hk : k = a
      · simp [lookup_cons, hk]
      · simpa [lookup_cons, hk] using ih h1

theorem lookup_bumpQ (d : List (String × ℚ)) (k : String) (v : ℚ) (k' : String) :
    (bumpQ d k v).lookup k' =
      if k' = k then some ((d.lookup k).getD 0 + v) else d.lookup k' := by
  unfold bumpQ
  split
  · next hs =>
    rw [lookup_mapAddQ]
    by_cases h : k' = k
    · subst h
      cases hx : d.lookup k' with
      | none => rw [hx] at hs; simp at hs
      | some x => simp [hx]
    · simp [h]
  · next hs =>
    rw [lookup_append_one]
    by_cases h : k' = k
    · subst h
      cases hx : d.lookup k' with
      | none => simp [hx]
      | some x => rw [hx] at hs; simp at hs
    · cases hx : d.lookup k' with
      | none => simp [hx, h]
      | some x => simp [hx, h]

theorem lookup_bumpCount (d : List (String × Nat)) (k : String) (k' : String) :
    (bumpCount d k).lookup k' =
      if k' = k then some ((d.lookup k).getD 0 + 1) else d.lookup k' := by
  unfold bumpCount
  split
  · next hs =>
    rw [lookup_mapAddNat]
    by_cases h : k' = k
    · subst h
      cases hx : d.lookup k' with
      | none => rw [hx] at hs; simp at hs
      | some x => simp [hx]
    · simp [h]
  · next hs =>
    rw [lookup_append_one]
    by_cases h : k' = k
    · subst h
      cases hx : d.lookup k' with
      | none => simp [hx]
      | some x => rw [hx] at hs; simp at hs
    · cases hx : d.lookup k' with
      | none => simp [hx, h]
      | some x => simp [hx, h]

theorem voterStep_fst_getD (disq : List (String × List String))
    (sc : List (String × ℚ) × List (String × Nat)) (p : Nat × String) (m : String) :
    ((voterStep disq sc p).1.lookup m).getD 0 =
      (sc.1.lookup m).getD 0 +
        (if p.2 = m ∧ (disq.lookup m).isNone then ((p.1 : ℚ) + 1) else 0) := by
  unfold voterStep
  split
  · next hs =>
    have hcond : ¬(p.2 = m ∧ (disq.lookup m).isNone = true) := by
      rintro ⟨rfl, hn⟩
      rw [Option.isNone_iff_eq_none] at hn
      rw [hn] at hs
      simp at hs
    rw [if_neg hcond, add_zero]
  · next hs =>
    simp only [lookup_bumpQ]
    by_cases hm : m = p.2
    · have hn : (disq.lookup p.2).isNone = true := by
        cases hx : disq.lookup p.2 with
        | none => rfl
        | some x => rw [hx] at hs; simp at hs
      rw [hm]
      rw [if_pos rfl, if_pos ⟨rfl, hn⟩]
      simp
    · have hcond : ¬(p.2 = m ∧ (disq.lookup m).isNone = true) := by
        rintro ⟨h1, _⟩
        exact hm h1.symm
      rw [if_neg hm, if_neg hcond, add_zero]

theorem voterStep_snd_getD (disq : List (String × List String))
    (sc : List (String × ℚ) × List (String × Nat)) (p : Nat × String) (m : String) :
    ((voterStep disq sc p).2.lookup m).getD 0 =
      (sc.2.lookup m).getD 0 +
        (if p.2 = m ∧ (disq.lookup m).isNone then 1 else 0) := by
  unfold voterStep
  split
  · next hs =>
    have hcond : ¬(p.2 = m ∧ (disq.lookup m).isNone = true) := by
      rintro ⟨rfl, hn⟩
      rw [Option.isNone_iff_eq_none] at hn
      rw [hn] at hs
      simp at hs
    rw [if_neg hcond, add_zero]
  · next hs =>
    simp only [lookup_bumpCount]
    by_cases hm : m = p.2
    · have hn : (disq.lookup p.2).isNone = true := by
        cases hx : disq.lookup p.2 with
        | none => rfl
        | some x => rw [hx] at hs; simp at hs
      rw [hm]
      rw [if_pos rfl, if_pos ⟨rfl, hn⟩]
      simp
    · have hcond : ¬(p.2 = m ∧ (disq.lookup m).isNone = true) := by
        rintro ⟨h1, _⟩
        exact hm h1.symm
      rw [if_neg hm, if_neg hcond, add_zero]

theorem foldl_voterStep_sum (disq : List (String × List String))
    (ps : List (Nat × String)) (m : String) : ∀ sc,
    (((ps.foldl (voterStep disq) sc).1.lookup m)).getD 0 =
      (sc.1.lookup m).getD 0 +
      (ps.map fun p =>
        if p.2 = m ∧ (disq.lookup m).isNone then ((p.1 : ℚ) + 1) else 0).sum := by
  induction ps with
  | nil => intro sc; simp
  | cons p ps ih =>
    intro sc
    simp only [List.foldl_cons, List.map_cons, List.sum_cons]
    rw [ih, voterStep_fst_getD]
    ring

theorem foldl_voterStep_count (disq : List (String × List String))
    (ps : List (Nat × String)) (m : String) : ∀ sc,
    (((ps.foldl (voterStep disq) sc).2.lookup m)).getD 0 =
      (sc.2.lookup m).getD 0 +
      (ps.map fun p =>
        if p.2 = m ∧ (disq.lookup m).isNone then 1 else 0).sum := by
  induction ps with
  | nil => intro sc; simp
  | cons p ps ih =>
    intro sc
    simp only [List.foldl_cons, List.map_cons, List.sum_cons]
    rw [ih, voterStep_snd_getD]
    omega

theorem voterFold_fst_getD (l2m : List (String × String))
    (disq : List (String × List String))
    (sc : List (String × ℚ) × List (String × Nat)) (v : Stage2Entry) (m : String) :
    ((voterFold l2m disq sc v).1.lookup m).getD 0 =
      (sc.1.lookup m).getD 0 +
      (if usable v then
        ((orderedModels l2m v.parsed_ranking).enum.map fun p =>
          if p.2 = m ∧ (disq.lookup m).isNone then ((p.1 : ℚ) + 1) else 0).sum
      else 0) := by
  unfold voterFold usable
  by_cases hu : (v.synthetic || v.isPartial) = true
  · simp [hu]
  · simp only [Bool.not_eq_true] at hu
    cases hp : v.parsed_ranking with
    | nil => simp [hu, orderedModels]
    | cons a l =>
      simp only [hu, Bool.false_eq_true, if_false, Bool.not_false, if_true]
      rw [foldl_voterStep_sum]

theorem voterFold_snd_getD (l2m : List (String × String))
    (disq : List (String × List String))
    (sc : List (String × ℚ) × List (String × Nat)) (v : Stage2Entry) (m : String) :
    ((voterFold l2m disq sc v).2.lookup m).getD 0 =
      (sc.2.lookup m).getD 0 +
      (if usable v then
        ((orderedModels l2m v.parsed_ranking).enum.map fun p =>
          if p.2 = m ∧ (disq.lookup m).isNone then 1 else 0).sum
      else 0) := by
  unfold voterFold usable
  by_cases hu : (v.synthetic || v.isPartial) = true
  · simp [hu]
  · simp only [Bool.not_eq_true] at hu
    cases hp : v.parsed_ranking with
    | nil => simp [hu, orderedModels]
    | cons a l =>
      simp only [hu, Bool.false_eq_true, if_false, Bool.not_false, if_true]
      rw [foldl_voterStep_count]

theorem foldl_voterFold_sum (l2m : List (String × String))
    (disq : List (String × List String)) (voters : List Stage2Entry)
    (m : String) : ∀ sc,
    (((voters.foldl (voterFold l2m disq) sc).1.lookup m)).getD 0 =
      (sc.1.lookup m).getD 0 + codeRankSum l2m disq voters m := by
  induction voters with
  | nil => intro sc; simp [codeRankSum]
  | cons v vs ih =>
    intro sc
    simp only [List.foldl_cons]
    rw [ih, voterFold_fst_getD]
    simp only [codeRankSum, List.map_cons, List.sum_cons]
    ring

theorem foldl_voterFold_count (l2m : List (String × String))
    (disq : List (String × List String)) (voters : List Stage2Entry)
    (m : String) : ∀ sc,
    (((voters.foldl (voterFold l2m disq) sc).2.lookup m)).getD 0 =
      (sc.2.lookup m).getD 0 + codeRankCount l2m disq voters m := by
  induction voters with
  | nil => intro sc; simp [codeRankCount]
  | cons v vs ih =>
    intro sc
    simp only [List.foldl_cons]
    rw [ih, voterFold_snd_getD]
    simp only [codeRankCount, List.map_cons, List.sum_cons]
    omega

theorem rankSums_fst_getD (voters : List Stage2Entry)
    (l2m : List (String × String)) (disq : List (String × List String))
    (m : String) :
    (((rankSumsCounts voters l2m disq).1.lookup m)).getD 0 =
      codeRankSum l2m disq voters m := by
  unfold rankSumsCounts
  rw [foldl_voterFold_sum]
  simp [lookup_nil]

theorem rankSums_snd_getD (voters : List Stage2Entry)
    (l2m : List (String × String)) (disq : List (String × List String))
    (m : String) :
    (((rankSumsCounts voters l2m disq).2.lookup m)).getD 0 =
      codeRankCount l2m disq voters m := by
  unfold rankSumsCounts
  rw [foldl_voterFold_count]
  simp [lookup_nil]

theorem voterStep_isSome_iff (disq : List (String × List String))
    (sc : List (String × ℚ) × List (String × Nat)) (p : Nat × String) (m : String)
    (h : ((sc.1.lookup m).isSome) = ((sc.2.lookup m).isSome)) :
    (((voterStep disq sc p).1.lookup m).isSome) =
      (((voterStep disq sc p).2.lookup m).isSome) := by
  unfold voterStep
  split
  · exact h
  · simp only [lookup_bumpQ, lookup_bumpCount]
    by_cases hm : m = p.2 <;> simp [hm, h]

theorem foldl_voterStep_isSome_iff (disq : List (String × List String))
    (ps : List (Nat × String)) (m : String) : ∀ sc,
    ((sc.1.lookup m).isSome) = ((sc.2.lookup m).isSome) →
    (((ps.foldl (voterStep disq) sc).1.lookup m).isSome) =
      (((ps.foldl (voterStep disq) sc).2.lookup m).isSome) := by
  induction ps with
  | nil => intro sc h; exact h
  | cons p ps ih =>
    intro sc h
    exact ih _ (voterStep_isSome_iff disq sc p m h)

theorem voterFold_isSome_iff (l2m : List (String × String))
    (disq : List (String × List String))
    (sc : List (String × ℚ) × List (String × Nat)) (v : Stage2Entry) (m : String)
    (h : ((sc.1.lookup m).isSome) = ((sc.2.lookup m).isSome)) :
    (((voterFold l2m disq sc v).1.lookup m).isSome) =
      (((voterFold l2m disq sc v).2.lookup m).isSome) := by
  unfold voterFold
  split
  · exact h
  · cases hp : v.parsed_ranking with
    | nil => exact h
    | cons a l => exact foldl_voterStep_isSome_iff disq _ m sc h

theorem rankSums_isSome_iff (voters : List Stage2Entry)
    (l2m : List (String × String)) (disq : List (String × List String))
    (m : String) :
    (((rankSumsCounts voters l2m disq).1.lookup m).isSome) =
      (((rankSumsCounts voters l2m disq).2.lookup m).isSome) := by
  unfold rankSumsCounts
  have step : ∀ sc,
      ((sc.1.lookup m).isSome) = ((sc.2.lookup m).isSome) →
      (((voters.foldl (voterFold l2m disq) sc).1.lookup m).isSome) =
        (((voters.foldl (voterFold l2m disq) sc).2.lookup m).isSome) := by
    induction voters with
    | nil => intro sc h; exact h
    | cons v vs ih =>
      intro sc h
      exact ih _ (voterFold_isSome_iff l2m disq sc v m h)
  exact step ([], []) rfl

theorem voterStep_fst_isSome_disq (disq : List (String × List String))
    (sc : List (String × ℚ) × List (String × Nat)) (p : Nat × String) (m : String)
    (h : ((voterStep disq sc p).1.lookup m).isSome = true) :
    (sc.1.lookup m).isSome = true ∨ disq.lookup m = none := by
  unfold voterStep at h
  split at h
  · exact Or.inl h
  · next hs =>
    rw [lookup_bumpQ] at h
    by_cases hm : m = p.2
    · right
      rw [hm]
      cases hx : disq.lookup p.2 with
      | none => rfl
      | some x => rw [hx] at hs; simp at hs
    · rw [if_neg hm] at h
      exact Or.inl h

theorem foldl_voterStep_fst_isSome_disq (disq : List (String × List String))
    (ps : List (Nat × String)) (m : String) : ∀ sc,
    ((ps.foldl (voterStep disq) sc).1.lookup m).isSome = true →
    (sc.1.lookup m).isSome = true ∨ disq.lookup m = none := by
  induction ps with
  | nil => intro sc h; exact Or.inl h
  | cons p ps ih =>
    intro sc h
    rcases ih _ h with h1 | h1
    · exact voterStep_fst_isSome_disq disq sc p m h1
    · exact Or.inr h1

theorem voterFold_fst_isSome_disq (l2m : List (String × String))
    (disq : List (String × List String))
    (sc : List (String × ℚ) × List (String × Nat)) (v : Stage2Entry) (m : String)
    (h : ((voterFold l2m disq sc v).1.lookup m).isSome = true) :
    (sc.1.lookup m).isSome = true ∨ disq.lookup m = none := by
  unfold voterFold at h
  split at h
  · exact Or.inl h
  · cases hp : v.parsed_ranking with
    | nil => rw [hp] at h; exact Or.inl h
    | cons a l =>
      rw [hp] at h
      exact foldl_voterStep_fst_isSome_disq disq _ m sc h

theorem foldl_voterFold_fst_isSome_disq (l2m : List (String × String))
    (disq : List (String × List String)) (voters : List Stage2Entry)
    (m : String) : ∀ sc,
    ((voters.foldl (voterFold l2m disq) sc).1.lookup m).isSome = true →
    (sc.1.lookup m).isSome = true ∨ disq.lookup m = none := by
  induction voters with
  | nil => intro sc h1; exact Or.inl h1
  | cons v vs ih =>
    intro sc h1
    rw [List.foldl_cons] at h1
    rcases ih _ h1 with h2 | h2
    · exact voterFold_fst_isSome_disq l2m disq sc v m h2
    · exact Or.inr h2

theorem rankSums_fst_isSome_disq (voters : List Stage2Entry)
    (l2m : List (String × String)) (disq : List (String × List String))
    (m : String)
    (h : ((rankSumsCounts voters l2m disq).1.lookup m).isSome = true) :
    disq.lookup m = none := by
  unfold rankSumsCounts at h
  rcases foldl_voterFold_fst_isSome_disq l2m disq voters m ([], []) h with h1 | h1
  · simp [lookup_nil] at h1
  · exact h1

theorem enumFrom_claim_code_sum (l2m : List (String × String))
    (disq : List (String × List String)) (m : String)
    (parsed : List String)
    (h : ∀ lab ∈ parsed, (labelModel l2m lab).isSome = true) : ∀ n : Nat,
    ((parsed.enumFrom n).map fun p =>
      if labelModel l2m p.2 = some m ∧ (disq.lookup m).isNone then
        ((p.1 : ℚ) + 1) else 0).sum =
    (((parsed.filterMap (labelModel l2m)).enumFrom n).map fun p =>
      if p.2 = m ∧ (disq.lookup m).isNone then ((p.1 : ℚ) + 1) else 0).sum := by
  induction parsed with
  | nil => intro n; rfl
  | cons lab rest ih =>
    intro n
    obtain ⟨y, hy⟩ := Option.isSome_iff_exists.mp (h lab (List.mem_cons_self _ _))
    have hrest : ∀ lab2 ∈ rest, (labelModel l2m lab2).isSome = true :=
      fun lab2 hm2 => h lab2 (List.mem_cons_of_mem _ hm2)
    simp only [List.filterMap_cons, hy, List.enumFrom_cons, List.map_cons,
      List.sum_cons]
    rw [ih hrest]
    congr 1
    simp only [Option.some.injEq]

theorem enumFrom_claim_code_count (l2m : List (String × String))
    (disq : List (String × List String)) (m : String)
    (parsed : List String)
    (h : ∀ lab ∈ parsed, (labelModel l2m lab).isSome = true) : ∀ n : Nat,
    ((parsed.enumFrom n).map fun p =>
      if labelModel l2m p.2 = some m ∧ (disq.lookup m).isNone then 1 else 0).sum =
    (((parsed.filterMap (labelModel l2m)).enumFrom n).map fun p =>
      if p.2 = m ∧ (disq.lookup m).isNone then 1 else 0).sum := by
  induction parsed with
  | nil => intro n; rfl
  | cons lab rest ih =>
    intro n
    obtain ⟨y, hy⟩ := Option.isSome_iff_exists.mp (h lab (List.mem_cons_self _ _))
    have hrest : ∀ lab2 ∈ rest, (labelModel l2m lab2).isSome = true :=
      fun lab2 hm2 => h lab2 (List.mem_cons_of_mem _ hm2)
    simp only [List.filterMap_cons, hy, List.enumFrom_cons, List.map_cons,
      List.sum_cons]
    rw [ih hrest]
    congr 1
    simp only [Option.some.injEq]

theorem claim_eq_code_sum (l2m : List (String × String))
    (disq : List (String × List String)) (voters : List Stage2Entry) (m : String)
    (hmap : ∀ v ∈ voters, usable v = true →
      ∀ lab ∈ v.parsed_ranking, (labelModel l2m lab).isSome = true) :
    claimRankSum l2m disq voters m = codeRankSum l2m disq voters m := by
  unfold claimRankSum codeRankSum
  induction voters with
  | nil => rfl
  | cons v vs ih =>
    have hrest : ∀ v2 ∈ vs, usable v2 = true →
        ∀ lab ∈ v2.parsed_ranking, (labelModel l2m lab).isSome = true :=
      fun v2 h2 => hmap v2 (List.mem_cons_of_mem _ h2)
    simp only [List.map_cons, List.sum_cons]
    rw [ih hrest]
    congr 1
    by_cases hu : usable v = true
    · rw [if_pos hu, if_pos hu]
      unfold orderedModels
      have he : ∀ (l : List String), l.enum = l.enumFrom 0 := fun l => rfl
      rw [he, he]
      exact enumFrom_claim_code_sum l2m disq m v.parsed_ranking
        (hmap v (List.mem_cons_self _ _) hu) 0
    · rw [if_neg hu, if_neg hu]

theorem claim_eq_code_count (l2m : List (String × String))
    (disq : List (String × List String)) (voters : List Stage2Entry) (m : String)
    (hmap : ∀ v ∈ voters, usable v = true →
      ∀ lab ∈ v.parsed_ranking, (labelModel l2m lab).isSome = true) :
    claimRankCount l2m disq voters m = codeRankCount l2m disq voters m := by
  unfold claimRankCount codeRankCount
  induction voters with
  | nil => rfl
  | cons v vs ih =>
    have hrest : ∀ v2 ∈ vs, usable v2 = true →
        ∀ lab ∈ v2.parsed_ranking, (labelModel l2m lab).isSome = true :=
      fun v2 h2 => hmap v2 (List.mem_cons_of_mem _ h2)
    simp only [List.map_cons, List.sum_cons]
    rw [ih hrest]
    congr 1
    by_cases hu : usable v = true
    · rw [if_pos hu, if_pos hu]
      unfold orderedModels
      have he : ∀ (l : List String), l.enum = l.enumFrom 0 := fun l => rfl
      rw [he, he]
      exact enumFrom_claim_code_count l2m disq m v.parsed_ranking
        (hmap v (List.mem_cons_self _ _) hu) 0
    · rw [if_neg hu, if_neg hu]

theorem voterFold_not_usable (l2m : List (String × String))
    (disq : List (String × List String))
    (sc : List (String × ℚ) × List (String × Nat)) (v : Stage2Entry)
    (h : usable v = false) : voterFold l2m disq sc v = sc := by
  unfold usable at h
  simp only [Bool.not_eq_false'] at h
  unfold voterFold
  rw [if_pos h]

theorem foldl_voterFold_filter (l2m : List (String × String))
    (disq : List (String × List String)) (voters : List Stage2Entry) : ∀ sc,
    (voters.filter usable).foldl (voterFold l2m disq) sc =
      voters.foldl (voterFold l2m disq) sc := by
  induction voters with
  | nil => intro sc; rfl
  | cons v vs ih =>
    intro sc
    cases hu : usable v
    · rw [List.filter_cons_of_neg (by simp [hu]), List.foldl_cons,
        voterFold_not_usable l2m disq sc v hu]
      exact ih sc
    · rw [List.filter_cons_of_pos (by simp [hu]), List.foldl_cons, List.foldl_cons]
      exact ih _

theorem aggregate_filter_usable (voters : List Stage2Entry)
    (l2m : List (String × String))
    (evals : List (String × Option ContractEval)) :
    calculate_aggregate_rankings (voters.filter usable) l2m evals =
      calculate_aggregate_rankings voters l2m evals := by
  unfold calculate_aggregate_rankings rankSumsCounts
  simp only [foldl_voterFold_filter]

theorem aggLe_total (a b : Aggregate) : aggLe a b = true ∨ aggLe b a = true := by
  unfold aggLe
  rcases le_total a.average_rank b.average_rank with h | h <;>
    cases ha : a.disqualified <;> cases hb : b.disqualified <;> simp [h, ha, hb]

theorem aggLe_trans {a b c : Aggregate} (h1 : aggLe a b = true)
    (h2 : aggLe b c = true) : aggLe a c = true := by
  unfold aggLe at *
  cases ha : a.disqualified <;> cases hb : b.disqualified <;>
    cases hc : c.disqualified <;> simp_all <;> try exact le_trans h1 h2

theorem mem_stableInsert {α : Type} (le : α → α → Bool) (a x : α) (l : List α) :
    x ∈ stableInsert le a l ↔ x = a ∨ x ∈ l := by
  induction l with
  | nil => simp [stableInsert]
  | cons b t ih =>
    unfold stableInsert
    split
    · simp only [List.mem_cons, ih]
      tauto
    · simp only [List.mem_cons]

theorem pairwise_stableInsert {α : Type} (le : α → α → Bool)
    (htot : ∀ a b, le a b = true ∨ le b a = true)
    (htrans : ∀ {a b c}, le a b = true → le b c = true → le a c = true)
    (a : α) (l : List α) (h : l.Pairwise (fun x y => le x y = true)) :
    (stableInsert le a l).Pairwise (fun x y => le x y = true) := by
  induction l with
  | nil => simp [stableInsert]
  | cons b t ih =>
    rcases List.pairwise_cons.mp h with ⟨hb, ht⟩
    unfold stableInsert
    split
    · next hba =>
      refine List.pairwise_cons.mpr ⟨?_, ih ht⟩
      intro x hx
      rcases (mem_stableInsert le a x t).mp hx with rfl | hxt
      · exact hba
      · exact hb x hxt
    · next hba =>
      have hab : le a b = true := by
        rcases htot a b with h1 | h1
        · exact h1
        · exact absurd h1 hba
      refine List.pairwise_cons.mpr ⟨?_, h⟩
      intro x hx
      rcases List.mem_cons.mp hx with rfl | hxt
      · exact hab
      · exact htrans hab (hb x hxt)

theorem pairwise_stableSort {α : Type} (le : α → α → Bool)
    (htot : ∀ a b, le a b = true ∨ le b a = true)
    (htrans : ∀ {a b c}, le a b = true → le b c = true → le a c = true)
    (l : List α) :
    (stableSort le l).Pairwise (fun x y => le x y = true) := by
  unfold stableSort
  have step : ∀ acc, acc.Pairwise (fun x y => le x y = true) →
      (l.foldl (fun acc x => stableInsert le x acc) acc).Pairwise
        (fun x y => le x y = true) := by
    induction l with
    | nil => intro acc h; exact h
    | cons x t ih =>
      intro acc h
      rw [List.foldl_cons]
      exact ih _ (pairwise_stableInsert le htot htrans x acc h)
  exact step [] List.Pairwise.nil

theorem perm_stableInsert {α : Type} (le : α → α → Bool) (a : α) (l : List α) :
    (stableInsert le a l).Perm (a :: l) := by
  induction l with
  | nil => exact List.Perm.refl _
  | cons b t ih =>
    unfold stableInsert
    split
    · exact (ih.cons b).trans (List.Perm.swap a b t)
    · exact List.Perm.refl _

theorem perm_stableSort {α : Type} (le : α → α → Bool) (l : List α) :
    (stableSort le l).Perm l := by
  unfold stableSort
  have step : ∀ acc, (l.foldl (fun acc x => stableInsert le x acc) acc).Perm
      (acc ++ l) := by
    induction l with
    | nil => intro acc; simp
    | cons x t ih =>
      intro acc
      rw [List.foldl_cons]
      refine (ih _).trans ?_
      refine (((perm_stableInsert le x acc).append_right t).trans ?_)
      exact List.perm_middle.symm
  simpa using step []

theorem mem_foldl_agg3 (disq : List (String × List String))
    (evals : List (String × Option ContractEval))
    (l : List (String × String)) : ∀ (acc : List Aggregate) (a : Aggregate),
    a ∈ acc → a ∈ l.foldl (agg3Step disq evals) acc := by
  induction l with
  | nil => intro acc a h; exact h
  | cons p t ih =>
    intro acc a h
    rw [List.foldl_cons]
    apply ih
    unfold agg3Step
    split
    · exact h
    · exact List.mem_append_left _ h

theorem foldl_agg3_mem (disq : List (String × List String))
    (evals : List (String × Option ContractEval))
    (l : List (String × String)) : ∀ (acc : List Aggregate) (a : Aggregate),
    a ∈ l.foldl (agg3Step disq evals) acc →
    a ∈ acc ∨ (a.average_rank = 9999 ∧ a.rankings_count = 0 ∧
      a.disqualified = (disq.lookup a.model).isSome) := by
  induction l with
  | nil => intro acc a h; exact Or.inl h
  | cons p t ih =>
    intro acc a h
    rw [List.foldl_cons] at h
    rcases ih _ _ h with h1 | h1
    · unfold agg3Step at h1
      split at h1
      · exact Or.inl h1
      · rcases List.mem_append.mp h1 with h2 | h2
        · exact Or.inl h2
        · right
          rcases List.mem_singleton.mp h2 with rfl
          exact ⟨rfl, rfl, rfl⟩
    · exact Or.inr h1

theorem foldl_agg3_covers (disq : List (String × List String))
    (evals : List (String × Option ContractEval))
    (l : List (String × String)) : ∀ (acc : List Aggregate) (lab m : String),
    (lab, m) ∈ l → (∀ a ∈ acc, a.model ≠ m) →
    ∃ a ∈ l.foldl (agg3Step disq evals) acc,
      a.model = m ∧ a.average_rank = 9999 ∧ a.rankings_count = 0 ∧
      a.disqualified = (disq.lookup m).isSome := by
  induction l with
  | nil => intro acc lab m h; simp at h
  | cons p t ih =>
    intro acc lab m hm hacc
    rw [List.foldl_cons]
    by_cases hpm : p.2 = m
    · have hany : ¬(acc.any (fun a => a.model = p.2) = true) := by
        intro hx
        rcases List.any_eq_true.mp hx with ⟨a, ha, ha2⟩
        exact hacc a ha (by
          have := of_decide_eq_true ha2
          rw [this, hpm])
      have hstep : agg3Step disq evals acc p = acc ++
          [{ model := p.2
             average_rank := 9999
             rankings_count := 0
             disqualified := (disq.lookup p.2).isSome
             disqualify_reasons :=
               if (disq.lookup p.2).isSome then
                 match evals.lookup p.2 with
                 | some (some ev) => ev.hardFailReasons
                 | _ => []
               else [] }] := by
        unfold agg3Step
        rw [if_neg hany]
      rw [hstep]
      refine ⟨_, mem_foldl_agg3 disq evals t _ _
        (List.mem_append_right _ (List.mem_singleton.mpr rfl)), ?_⟩
      subst hpm
      exact ⟨rfl, rfl, rfl, rfl⟩
    · have hm' : (lab, m) ∈ t := by
        rcases List.mem_cons.mp hm with h1 | h1
        · exfalso
          apply hpm
          rw [show p = (lab, m) from h1.symm]
        · exact h1
      apply ih _ lab m hm'
      intro a ha
      unfold agg3Step at ha
      split at ha
      · exact hacc a ha
      · rcases List.mem_append.mp ha with h2 | h2
        · exact hacc a h2
        · rcases List.mem_singleton.mp h2 with rfl
          simpa using hpm

/-- C5: correctness of `calculate_aggregate_rankings`. (i) The output is
sorted ascending by the key `(disqualified, average_rank)`, so disqualified
rows sort last; (ii) synthetic and partial judges contribute nothing
(filtering them out first yields the same output); (iii) a row is flagged
disqualified exactly when its model is in the disqualification map; (iv) every
disqualified model gets a sentinel-9998 row carrying its reasons; (v) assuming
every label ranked by a usable judge maps to a model, each voted model's row
carries `rank_sums[m] / rank_counts[m]` accumulated as the specification
states (the 0-indexed position `i` contributes `i + 1` to the sum and `1` to
the count, with disqualified models skipped entirely); (vi) a labelled model
with no votes and no disqualification gets a sentinel-9999 row. -/
theorem aggregate_rankings_spec (voters : List Stage2Entry)
    (l2m : List (String × String))
    (evals : List (String × Option ContractEval))
    (hmap : ∀ v ∈ voters, usable v = true →
      ∀ lab ∈ v.parsed_ranking, (labelModel l2m lab).isSome = true) :
    (calculate_aggregate_rankings voters l2m evals).Pairwise
        (fun a b => aggLe a b = true) ∧
    calculate_aggregate_rankings (voters.filter usable) l2m evals =
        calculate_aggregate_rankings voters l2m evals ∧
    (∀ a ∈ calculate_aggregate_rankings voters l2m evals,
        a.disqualified = ((disqualifiedModels evals).lookup a.model).isSome) ∧
    (∀ pr ∈ disqualifiedModels evals,
        ∃ a ∈ calculate_aggregate_rankings voters l2m evals,
          a.model = pr.1 ∧ a.average_rank = 9998 ∧ a.disqualified = true ∧
          a.disqualify_reasons = pr.2) ∧
    (∀ m : String,
        0 < claimRankCount l2m (disqualifiedModels evals) voters m →
        ∃ a ∈ calculate_aggregate_rankings voters l2m evals,
          a.model = m ∧
          a.rankings_count =
            claimRankCount l2m (disqualifiedModels evals) voters m ∧
          a.average_rank =
            claimRankSum l2m (disqualifiedModels evals) voters m /
              (claimRankCount l2m (disqualifiedModels evals) voters m : ℚ) ∧
          a.disqualified = false) ∧
    (∀ p ∈ l2m,
        claimRankCount l2m (disqualifiedModels evals) voters p.2 = 0 →
        (disqualifiedModels evals).lookup p.2 = none →
        ∃ a ∈ calculate_aggregate_rankings voters l2m evals,
          a.model = p.2 ∧ a.average_rank = 9999 ∧ a.rankings_count = 0 ∧
          a.disqualified = false) := by
  have hcalc : calculate_aggregate_rankings voters l2m evals =
      stableSort aggLe
        (l2m.foldl (agg3Step (disqualifiedModels evals) evals)
          (agg2Of (rankSumsCounts voters l2m (disqualifiedModels evals))
            (disqualifiedModels evals))) := rfl
  have hperm := perm_stableSort aggLe
    (l2m.foldl (agg3Step (disqualifiedModels evals) evals)
      (agg2Of (rankSumsCounts voters l2m (disqualifiedModels evals))
        (disqualifiedModels evals)))
  have hmem : ∀ a : Aggregate,
      a ∈ calculate_aggregate_rankings voters l2m evals ↔
      a ∈ l2m.foldl (agg3Step (disqualifiedModels evals) evals)
        (agg2Of (rankSumsCounts voters l2m (disqualifiedModels evals))
          (disqualifiedModels evals)) := by
    intro a
    rw [hcalc]
    exact hperm.mem_iff
  refine ⟨?_, aggregate_filter_usable voters l2m evals, ?_, ?_, ?_, ?_⟩
  · rw [hcalc]
    exact pairwise_stableSort aggLe aggLe_total (fun h1 h2 => aggLe_trans h1 h2) _
  · intro a ha
    rcases foldl_agg3_mem _ _ _ _ a ((hmem a).mp ha) with h1 | h1
    · unfold agg2Of at h1
      rcases List.mem_append.mp h1 with h2 | h2
      · unfold agg1Of at h2
        rcases List.mem_filterMap.mp h2 with ⟨q, hq, hfq⟩
        obtain ⟨q1, q2⟩ := q
        dsimp only at hfq
        split at hfq
        · injection hfq with hfq2
          subst hfq2
          have hq1 : ((rankSumsCounts voters l2m
              (disqualifiedModels evals)).1.lookup q1).isSome = true :=
            lookup_isSome_of_mem hq
          have hnone := rankSums_fst_isSome_disq voters l2m
            (disqualifiedModels evals) q1 hq1
          simp [hnone]
        · exact absurd hfq (by simp)
      · rcases List.mem_map.mp h2 with ⟨pr, hpr, hfq⟩
        obtain ⟨pr1, pr2⟩ := pr
        subst hfq
        have hsome := lookup_isSome_of_mem hpr
        simp [hsome]
    · exact h1.2.2
  · intro pr hpr
    obtain ⟨pr1, pr2⟩ := pr
    have hrow : ({ model := pr1
                   average_rank := 9998
                   rankings_count := ((rankSumsCounts voters l2m
                     (disqualifiedModels evals)).2.lookup pr1).getD 0
                   disqualified := true
                   disqualify_reasons := pr2 } : Aggregate) ∈
        agg2Of (rankSumsCounts voters l2m (disqualifiedModels evals))
          (disqualifiedModels evals) := by
      unfold agg2Of
      exact List.mem_append_right _ (List.mem_map_of_mem _ hpr)
    exact ⟨_, (hmem _).mpr (mem_foldl_agg3 _ _ _ _ _ hrow), rfl, rfl, rfl, rfl⟩
  · intro m hcnt
    have hDcnt := claim_eq_code_count l2m (disqualifiedModels evals) voters m hmap
    have hDsum := claim_eq_code_sum l2m (disqualifiedModels evals) voters m hmap
    have hc2 := rankSums_snd_getD voters l2m (disqualifiedModels evals) m
    have hcpos : 0 < ((rankSumsCounts voters l2m
        (disqualifiedModels evals)).2.lookup m).getD 0 := by
      rw [hc2, ← hDcnt]
      exact hcnt
    have hsome2 : ((rankSumsCounts voters l2m
        (disqualifiedModels evals)).2.lookup m).isSome = true := by
      cases hx : (rankSumsCounts voters l2m
          (disqualifiedModels evals)).2.lookup m with
      | none => rw [hx] at hcpos; simp at hcpos
      | some x => rfl
    have hsome1 : ((rankSumsCounts voters l2m
        (disqualifiedModels evals)).1.lookup m).isSome = true := by
      rw [rankSums_isSome_iff]
      exact hsome2
    obtain ⟨s, hs⟩ := Option.isSome_iff_exists.mp hsome1
    have hsval : s = codeRankSum l2m (disqualifiedModels evals) voters m := by
      have h0 := rankSums_fst_getD voters l2m (disqualifiedModels evals) m
      rw [hs] at h0
      simpa using h0
    have hrow : ({ model := m
                   average_rank := s / (((rankSumsCounts voters l2m
                     (disqualifiedModels evals)).2.lookup m).getD 0 : ℚ)
                   rankings_count := ((rankSumsCounts voters l2m
                     (disqualifiedModels evals)).2.lookup m).getD 0
                   disqualified := false
                   disqualify_reasons := [] } : Aggregate) ∈
        agg1Of (rankSumsCounts voters l2m (disqualifiedModels evals)) := by
      unfold agg1Of
      refine List.mem_filterMap.mpr ⟨(m, s), mem_of_lookup_some hs, ?_⟩
      dsimp only
      rw [if_pos hcpos]
    have hrow2 : ({ model := m
                    average_rank := s / (((rankSumsCounts voters l2m
                      (disqualifiedModels evals)).2.lookup m).getD 0 : ℚ)
                    rankings_count := ((rankSumsCounts voters l2m
                      (disqualifiedModels evals)).2.lookup m).getD 0
                    disqualified := false
                    disqualify_reasons := [] } : Aggregate) ∈
        agg2Of (rankSumsCounts voters l2m (disqualifiedModels evals))
          (disqualifiedModels evals) := by
      unfold agg2Of
      exact List.mem_append_left _ hrow
    refine ⟨_, (hmem _).mpr (mem_foldl_agg3 _ _ _ _ _ hrow2), rfl, ?_, ?_, rfl⟩
    · dsimp only
      rw [hc2, ← hDcnt]
    · dsimp only
      rw [hsval, hc2, ← hDsum, ← hDcnt]
  · intro p hp hcnt0 hnone
    have hDcnt := claim_eq_code_count l2m (disqualifiedModels evals) voters p.2 hmap
    have hprem : ∀ a ∈ agg2Of (rankSumsCounts voters l2m
        (disqualifiedModels evals)) (disqualifiedModels evals),
        a.model ≠ p.2 := by
      intro a ha
      unfold agg2Of at ha
      rcases List.mem_append.mp ha with h2 | h2
      · unfold agg1Of at h2
        rcases List.mem_filterMap.mp h2 with ⟨q, hq, hfq⟩
        obtain ⟨q1, q2⟩ := q
        dsimp only at hfq
        split at hfq
        · next hcq =>
          injection hfq with hfq2
          subst hfq2
          dsimp only
          intro hmodel
          rw [hmodel, rankSums_snd_getD, ← hDcnt, hcnt0] at hcq
          simp at hcq
        · exact absurd hfq (by simp)
      · rcases List.mem_map.mp h2 with ⟨pr, hpr, hfq⟩
        obtain ⟨pr1, pr2⟩ := pr
        subst hfq
        dsimp only
        intro hmodel
        have hsome := lookup_isSome_of_mem hpr
        rw [hmodel, hnone] at hsome
        simp at hsome
    obtain ⟨a, haA3, ham, h9999, hrc, hdq⟩ :=
      foldl_agg3_covers (disqualifiedModels evals) evals l2m _ p.1 p.2
        (by rwa [Prod.mk.eta]) hprem
    refine ⟨a, (hmem a).mpr haA3, ham, h9999, hrc, ?_⟩
    rw [hdq, hnone]
    rfl

set_option maxRecDepth 100000 in
/-- C5 (witness): the aggregate-rankings theorem applied at the five-voter
fixture (two partial/synthetic voters, `mC`/`mE` disqualified). -/
theorem aggregate_rankings_spec_witness :
    (∀ v ∈ cVoters, usable v = true →
      ∀ lab ∈ v.parsed_ranking, (labelModel cL2M lab).isSome = true) ∧
    ((calculate_aggregate_rankings cVoters cL2M cEvals).Pairwise
        (fun a b => aggLe a b = true) ∧
    calculate_aggregate_rankings (cVoters.filter usable) cL2M cEvals =
        calculate_aggregate_rankings cVoters cL2M cEvals ∧
    (∀ a ∈ calculate_aggregate_rankings cVoters cL2M cEvals,
        a.disqualified = ((disqualifiedModels cEvals).lookup a.model).isSome) ∧
    (∀ pr ∈ disqualifiedModels cEvals,
        ∃ a ∈ calculate_aggregate_rankings cVoters cL2M cEvals,
          a.model = pr.1 ∧ a.average_rank = 9998 ∧ a.disqualified = true ∧
          a.disqualify_reasons = pr.2) ∧
    (∀ m : String,
        0 < claimRankCount cL2M (disqualifiedModels cEvals) cVoters m →
        ∃ a ∈ calculate_aggregate_rankings cVoters cL2M cEvals,
          a.model = m ∧
          a.rankings_count =
            claimRankCount cL2M (disqualifiedModels cEvals) cVoters m ∧
          a.average_rank =
            claimRankSum cL2M (disqualifiedModels cEvals) cVoters m /
              (claimRankCount cL2M (disqualifiedModels cEvals) cVoters m : ℚ) ∧
          a.disqualified = false) ∧
    (∀ p ∈ cL2M,
        claimRankCount cL2M (disqualifiedModels cEvals) cVoters p.2 = 0 →
        (disqualifiedModels cEvals).lookup p.2 = none →
        ∃ a ∈ calculate_aggregate_rankings cVoters cL2M cEvals,
          a.model = p.2 ∧ a.average_rank = 9999 ∧ a.rankings_count = 0 ∧
          a.disqualified = false)) :=
  ⟨by decide, aggregate_rankings_spec cVoters cL2M cEvals (by decide)⟩

end Council
